import Mathlib

/-!
Verification development for the terminal-emulator core of
par-term-emu-core-rust.  The Rust core itself is not present in the
repository sample (only the Python test-suite and binding surface are),
so the definitions below are a shallow embedding modelled from the
specification (spec.md): the byte-stream parser state machine, the
screen model with alternate screen, the OSC-133 zone tracker, user
variables (OSC 1337 SetUserVar), named progress bars (OSC 934), remote
host handling, Unicode NFC normalization on print, the trigger engine,
and the graphics JSON export/import contract.

Bytes and Unicode scalar values are represented as `Nat`; fallible
operations return `Option` or `Except`.
-/

namespace PTE

/-- Modelled from the spec: terminal colors (default / 256-palette indexed /
truecolor), as used by SGR attributes. -/
inductive Color where
  | default : Color
  | indexed : Nat → Color
  | rgb : Nat → Nat → Nat → Color
deriving DecidableEq, Repr

/-- Modelled from the spec: the SGR attribute set carried by the cursor and
applied to printed cells (fg/bg color, bold, dim, italic, underline, blink,
reverse, invisible, strikethrough). -/
structure Style where
  fg : Color := Color.default
  bg : Color := Color.default
  bold : Bool := false
  dim : Bool := false
  italic : Bool := false
  underline : Bool := false
  blink : Bool := false
  reverseVideo : Bool := false
  invisible : Bool := false
  strikethrough : Bool := false
deriving DecidableEq, Repr

/-- The default SGR style of a fresh terminal. -/
def Style.init : Style := {}

/-- Modelled from the spec: a grid cell holding one grapheme cluster (a list
of Unicode scalar values) and its style.  A blank cell holds a single space. -/
structure Cell where
  grapheme : List Nat
  style : Style
deriving DecidableEq, Repr

/-- A blank cell: a space with the given style. -/
def blankCell (st : Style) : Cell := ⟨[32], st⟩

/-- A blank row of the given width. -/
def blankRow (cols : Nat) : List Cell := List.replicate cols (blankCell Style.init)

/-- A blank grid of the given dimensions. -/
def blankGrid (cols rows : Nat) : List (List Cell) :=
  List.replicate rows (blankRow cols)

/-! ## Base64 (used by OSC 1337 SetUserVar payloads and the graphics JSON
export, per spec sections 4.7 and 4.8) -/

/-- The base64 digit for a 6-bit value, as a byte. -/
def b64Char (n : Nat) : Nat :=
  if n < 26 then 65 + n
  else if n < 52 then 97 + (n - 26)
  else if n < 62 then 48 + (n - 52)
  else if n = 62 then 43
  else 47

/-- The 6-bit value of a base64 digit byte, if any. -/
def b64Val (c : Nat) : Option Nat :=
  if 65 ≤ c ∧ c ≤ 90 then some (c - 65)
  else if 97 ≤ c ∧ c ≤ 122 then some (c - 97 + 26)
  else if 48 ≤ c ∧ c ≤ 57 then some (c - 48 + 52)
  else if c = 43 then some 62
  else if c = 47 then some 63
  else none

/-- Modelled from the spec: base64 encoding of a byte list (RFC 4648 with
padding), producing the digit bytes. -/
def b64Encode : List Nat → List Nat
  | [] => []
  | [b1] => [b64Char (b1 / 4), b64Char (b1 % 4 * 16), 61, 61]
  | [b1, b2] => [b64Char (b1 / 4), b64Char (b1 % 4 * 16 + b2 / 16),
      b64Char (b2 % 16 * 4), 61]
  | b1 :: b2 :: b3 :: rest =>
      b64Char (b1 / 4) :: b64Char (b1 % 4 * 16 + b2 / 16) ::
      b64Char (b2 % 16 * 4 + b3 / 64) :: b64Char (b3 % 64) ::
      b64Encode rest

/-- Decode one base64 quantum (four digit bytes, with optional padding). -/
def b64DecodeChunk (c1 c2 c3 c4 : Nat) : Option (List Nat) :=
  match b64Val c1, b64Val c2 with
  | some v1, some v2 =>
    if c3 = 61 ∧ c4 = 61 then some [v1 * 4 + v2 / 16]
    else
      match b64Val c3 with
      | some v3 =>
        if c4 = 61 then some [v1 * 4 + v2 / 16, v2 % 16 * 16 + v3 / 4]
        else
          match b64Val c4 with
          | some v4 => some [v1 * 4 + v2 / 16, v2 % 16 * 16 + v3 / 4,
              v3 % 4 * 64 + v4]
          | none => none
      | none => none
  | _, _ => none

/-- Modelled from the spec: base64 decoding of a digit-byte list; `none` on
malformed input. -/
def b64Decode : List Nat → Option (List Nat)
  | [] => some []
  | c1 :: c2 :: c3 :: c4 :: rest => do
      let chunk ← b64DecodeChunk c1 c2 c3 c4
      let tail ← b64Decode rest
      pure (chunk ++ tail)
  | _ => none

theorem b64Val_b64Char {n : Nat} (h : n < 64) : b64Val (b64Char n) = some n := by
  unfold b64Char b64Val
  split_ifs <;> simp_all <;> omega

theorem b64Char_ne_61 (n : Nat) : b64Char n ≠ 61 := by
  unfold b64Char
  split_ifs <;> omega

/-- Base64 round trip: decoding an encoded byte list restores it. -/
theorem b64Decode_b64Encode : ∀ bs : List Nat, (∀ b ∈ bs, b < 256) →
    b64Decode (b64Encode bs) = some bs := by
  intro bs
  induction bs using b64Encode.induct with
  | case1 => intro _; rfl
  | case2 b1 =>
    intro h
    have hb1 : b1 < 256 := h b1 (by simp)
    simp only [b64Encode, b64Decode, b64DecodeChunk,
      b64Val_b64Char (show b1 / 4 < 64 by omega),
      b64Val_b64Char (show b1 % 4 * 16 < 64 by omega),
      b64Char_ne_61, and_self, if_true, if_false, and_false, false_and,
      Option.bind_eq_bind, Option.some_bind, Option.pure_def,
      Option.some.injEq, List.cons.injEq, List.append_nil, and_true]
    omega
  | case3 b1 b2 =>
    intro h
    have hb1 : b1 < 256 := h b1 (by simp)
    have hb2 : b2 < 256 := h b2 (by simp)
    simp only [b64Encode, b64Decode, b64DecodeChunk,
      b64Val_b64Char (show b1 / 4 < 64 by omega),
      b64Val_b64Char (show b1 % 4 * 16 + b2 / 16 < 64 by omega),
      b64Val_b64Char (show b2 % 16 * 4 < 64 by omega),
      b64Char_ne_61, and_self, if_true, if_false, and_false, false_and,
      Option.bind_eq_bind, Option.some_bind, Option.pure_def,
      Option.some.injEq, List.cons.injEq, List.append_nil, and_true]
    refine ⟨by omega, by omega⟩
  | case4 b1 b2 b3 rest ih =>
    intro h
    have hb1 : b1 < 256 := h b1 (by simp)
    have hb2 : b2 < 256 := h b2 (by simp)
    have hb3 : b3 < 256 := h b3 (by simp)
    have hrest : ∀ b ∈ rest, b < 256 := by
      intro b hb; exact h b (by simp [hb])
    simp only [b64Encode, b64Decode, b64DecodeChunk,
      b64Val_b64Char (show b1 / 4 < 64 by omega),
      b64Val_b64Char (show b1 % 4 * 16 + b2 / 16 < 64 by omega),
      b64Val_b64Char (show b2 % 16 * 4 + b3 / 64 < 64 by omega),
      b64Val_b64Char (show b3 % 64 < 64 by omega),
      b64Char_ne_61, and_self, if_true, if_false, and_false, false_and,
      Option.bind_eq_bind, Option.some_bind, ih hrest, Option.pure_def,
      List.cons_append, List.nil_append, Option.some.injEq,
      List.cons.injEq, and_true]
    refine ⟨by omega, by omega, by omega⟩

/-! ## UTF-8 (spec section 4.1: the parser decodes UTF-8 in Ground; handlers
decode OSC payload bytes back to text) -/

/-- UTF-8 encoding of one Unicode scalar value. -/
def utf8EncodeScalar (c : Nat) : List Nat :=
  if c < 0x80 then [c]
  else if c < 0x800 then [0xC0 + c / 64, 0x80 + c % 64]
  else if c < 0x10000 then
    [0xE0 + c / 4096, 0x80 + c / 64 % 64, 0x80 + c % 64]
  else
    [0xF0 + c / 262144, 0x80 + c / 4096 % 64, 0x80 + c / 64 % 64, 0x80 + c % 64]

/-- UTF-8 byte encoding of a string. -/
def strToBytes (s : String) : List Nat :=
  (s.data.map (fun c => utf8EncodeScalar c.toNat)).flatten

/-- Decode one UTF-8 sequence from a lead byte and the remaining bytes,
returning the scalar value and the bytes after the sequence.  Lenient:
truncated sequences produce U+FFFD, per the resynchronization rule of the
spec. -/
def utf8DecodeStep (b : Nat) (rest : List Nat) : Nat × List Nat :=
  if b < 0x80 then (b, rest)
  else if b < 0xE0 then
    match rest with
    | b2 :: rest2 => ((b - 0xC0) * 64 + (b2 - 0x80), rest2)
    | [] => (0xFFFD, [])
  else if b < 0xF0 then
    match rest with
    | b2 :: b3 :: rest2 =>
        ((b - 0xE0) * 4096 + (b2 - 0x80) * 64 + (b3 - 0x80), rest2)
    | _ => (0xFFFD, [])
  else
    match rest with
    | b2 :: b3 :: b4 :: rest2 =>
        ((b - 0xF0) * 262144 + (b2 - 0x80) * 4096 + (b3 - 0x80) * 64 +
          (b4 - 0x80), rest2)
    | _ => (0xFFFD, [])

theorem utf8DecodeStep_len (b : Nat) (rest : List Nat) :
    (utf8DecodeStep b rest).2.length ≤ rest.length := by
  unfold utf8DecodeStep
  split_ifs <;> rcases rest with _ | ⟨b2, _ | ⟨b3, _ | ⟨b4, rest2⟩⟩⟩ <;>
    (simp; try omega)

/-- Fuel-driven scan of `utf8DecodeStep` (the fuel is the byte count, which
bounds the number of decoded sequences). -/
def utf8DecodeGo : Nat → List Nat → List Nat
  | 0, _ => []
  | _, [] => []
  | fuel + 1, b :: rest =>
    (utf8DecodeStep b rest).1 :: utf8DecodeGo fuel (utf8DecodeStep b rest).2

/-- Lenient UTF-8 decoding of a byte list into Unicode scalar values. -/
def utf8Decode (bs : List Nat) : List Nat := utf8DecodeGo bs.length bs

theorem utf8DecodeGo_nil (f : Nat) : utf8DecodeGo f [] = [] := by
  cases f <;> rfl

theorem utf8DecodeGo_irrel : ∀ (f1 f2 : Nat) (bs : List Nat),
    bs.length ≤ f1 → bs.length ≤ f2 → utf8DecodeGo f1 bs = utf8DecodeGo f2 bs := by
  intro f1
  induction f1 with
  | zero =>
    intro f2 bs h1 _
    have : bs = [] := List.length_eq_zero.mp (Nat.le_zero.mp h1)
    subst this
    rw [utf8DecodeGo_nil, utf8DecodeGo_nil]
  | succ f1 ih =>
    intro f2 bs h1 h2
    cases bs with
    | nil => rw [utf8DecodeGo_nil, utf8DecodeGo_nil]
    | cons b rest =>
      cases f2 with
      | zero => simp at h2
      | succ f2 =>
        simp only [utf8DecodeGo, List.cons.injEq, true_and]
        have hlen := utf8DecodeStep_len b rest
        simp only [List.length_cons] at h1 h2
        exact ih f2 _ (by omega) (by omega)

theorem utf8Decode_cons (b : Nat) (rest : List Nat) :
    utf8Decode (b :: rest) =
      (utf8DecodeStep b rest).1 :: utf8Decode (utf8DecodeStep b rest).2 := by
  unfold utf8Decode
  simp only [List.length_cons, utf8DecodeGo, List.cons.injEq, true_and]
  exact utf8DecodeGo_irrel _ _ _ (utf8DecodeStep_len b rest) le_rfl

/-- A scalar-value list rendered as a Lean string. -/
def scalarsToStr (cs : List Nat) : String := String.mk (cs.map Char.ofNat)

/-- Decode a UTF-8 byte list to a Lean string. -/
def bytesToStr (bs : List Nat) : String := scalarsToStr (utf8Decode bs)

theorem utf8DecodeStep_ascii {c : Nat} (h : c < 0x80) (rest : List Nat) :
    utf8DecodeStep c rest = (c, rest) := by
  unfold utf8DecodeStep
  rw [if_pos h]

theorem utf8DecodeStep_two {c : Nat} (h1 : 0x80 ≤ c) (h2 : c < 0x800)
    (rest : List Nat) :
    utf8DecodeStep (0xC0 + c / 64) ((0x80 + c % 64) :: rest) = (c, rest) := by
  unfold utf8DecodeStep
  rw [if_neg (by omega), if_pos (by omega)]
  simp only [Prod.mk.injEq]
  exact ⟨by omega, trivial⟩

theorem utf8DecodeStep_three {c : Nat} (h1 : 0x800 ≤ c) (h2 : c < 0x10000)
    (rest : List Nat) :
    utf8DecodeStep (0xE0 + c / 4096)
      ((0x80 + c / 64 % 64) :: (0x80 + c % 64) :: rest) = (c, rest) := by
  unfold utf8DecodeStep
  rw [if_neg (by omega), if_neg (by omega), if_pos (by omega)]
  simp only [Prod.mk.injEq]
  exact ⟨by omega, trivial⟩

theorem utf8DecodeStep_four {c : Nat} (h1 : 0x10000 ≤ c) (h2 : c < 0x110000)
    (rest : List Nat) :
    utf8DecodeStep (0xF0 + c / 262144)
      ((0x80 + c / 4096 % 64) :: (0x80 + c / 64 % 64) :: (0x80 + c % 64) ::
        rest) = (c, rest) := by
  unfold utf8DecodeStep
  rw [if_neg (by omega), if_neg (by omega), if_neg (by omega)]
  simp only [Prod.mk.injEq]
  exact ⟨by omega, trivial⟩

theorem utf8Decode_encode_cons (c : Nat) (rest : List Nat) (h : c < 0x110000) :
    utf8Decode (utf8EncodeScalar c ++ rest) = c :: utf8Decode rest := by
  unfold utf8EncodeScalar
  split_ifs with h1 h2 h3
  · rw [List.cons_append, List.nil_append, utf8Decode_cons,
      utf8DecodeStep_ascii h1]
  · rw [List.cons_append, List.cons_append, List.nil_append, utf8Decode_cons,
      utf8DecodeStep_two (by omega) h2]
  · rw [List.cons_append, List.cons_append, List.cons_append,
      List.nil_append, utf8Decode_cons, utf8DecodeStep_three (by omega) h3]
  · rw [List.cons_append, List.cons_append, List.cons_append,
      List.cons_append, List.nil_append, utf8Decode_cons,
      utf8DecodeStep_four (by omega) h]

theorem char_toNat_lt (c : Char) : c.toNat < 0x110000 := by
  rcases c.valid with h | h
  · exact Nat.lt_trans h (by norm_num)
  · exact h.2

theorem utf8Decode_strToBytes (s : String) :
    utf8Decode (strToBytes s) = s.data.map Char.toNat := by
  unfold strToBytes
  induction s.data with
  | nil => rfl
  | cons c cs ih =>
    simp only [List.map_cons, List.flatten_cons,
      utf8Decode_encode_cons c.toNat _ (char_toNat_lt c), List.cons.injEq]
    exact ⟨trivial, ih⟩

theorem bytesToStr_strToBytes (s : String) : bytesToStr (strToBytes s) = s := by
  unfold bytesToStr scalarsToStr
  rw [utf8Decode_strToBytes]
  cases s with
  | mk data =>
    refine congrArg String.mk ?_
    simp only [List.map_map]
    calc data.map (Char.ofNat ∘ Char.toNat) = data.map id :=
          List.map_congr_left (fun c _ => Char.ofNat_toNat c)
      _ = data := List.map_id data

/-! ## Byte-list helpers used by OSC payload parsing -/

/-- Split a byte list at the first occurrence of a separator byte; returns
the part before it and, when the separator occurs, the part after it. -/
def splitFirst (sep : Nat) : List Nat → List Nat × Option (List Nat)
  | [] => ([], none)
  | b :: rest =>
    if b = sep then ([], some rest)
    else
      let r := splitFirst sep rest
      (b :: r.1, r.2)

/-- Split a byte list at every occurrence of a separator byte. -/
def splitAll (sep : Nat) : List Nat → List (List Nat)
  | [] => [[]]
  | b :: rest =>
    if b = sep then [] :: splitAll sep rest
    else
      match splitAll sep rest with
      | part :: parts => (b :: part) :: parts
      | [] => [[b]]

/-- Parse a decimal number from ASCII digit bytes; non-digits abort. -/
def natOfDigits : List Nat → Option Nat :=
  fun bs => go bs 0
where
  /-- Accumulator loop for `natOfDigits`. -/
  go : List Nat → Nat → Option Nat
  | [], acc => some acc
  | b :: rest, acc =>
    if 48 ≤ b ∧ b ≤ 57 then go rest (acc * 10 + (b - 48)) else none

/-- Does the byte list start with the given prefix? -/
def bytesStartWith : List Nat → List Nat → Bool
  | [], _ => true
  | _ :: _, [] => false
  | p :: ps, b :: bs => p = b && bytesStartWith ps bs

/-- Replace the element at an index, leaving other positions alone. -/
def listModify {α : Type} (f : α → α) : Nat → List α → List α
  | _, [] => []
  | 0, x :: xs => f x :: xs
  | n + 1, x :: xs => x :: listModify f n xs

/-- Association-list lookup by string key. -/
def assocGet {α : Type} (k : String) : List (String × α) → Option α
  | [] => none
  | (k2, v) :: rest => if k2 = k then some v else assocGet k rest

/-- Association-list update: replace in place, append when the key is new
(preserving insertion order, per spec section 4.7). -/
def assocSet {α : Type} (k : String) (v : α) : List (String × α) →
    List (String × α)
  | [] => [(k, v)]
  | (k2, v2) :: rest =>
    if k2 = k then (k, v) :: rest else (k2, v2) :: assocSet k v rest

/-- Association-list deletion by string key. -/
def assocDel {α : Type} (k : String) : List (String × α) → List (String × α)
  | [] => []
  | (k2, v2) :: rest =>
    if k2 = k then rest else (k2, v2) :: assocDel k rest

/-! ## Terminal data model (spec section 3) -/

/-- Modelled from the spec: the kind of a shell-integration zone. -/
inductive ZoneKind where
  | prompt
  | command
  | output
deriving DecidableEq, Repr

/-- Modelled from the spec: a semantic zone anchored to absolute row IDs,
with optional exit code and a monotonic zone id.  (The spec's wall-clock
timestamp is host time and is not modelled.) -/
structure Zone where
  zoneType : ZoneKind
  absRowStart : Nat
  absRowEnd : Option Nat
  exitCode : Option Nat
  id : Nat
deriving DecidableEq, Repr

/-- Modelled from the spec: the state of a named progress bar. -/
inductive PBState where
  | normal
  | indeterminate
  | warning
  | error
deriving DecidableEq, Repr

/-- The wire name of a progress-bar state. -/
def PBState.name : PBState → String
  | .normal => "normal"
  | .indeterminate => "indeterminate"
  | .warning => "warning"
  | .error => "error"

/-- Parse a progress-bar state name; unknown names fall back to normal. -/
def parsePBState (s : String) : PBState :=
  if s = "indeterminate" then .indeterminate
  else if s = "warning" then .warning
  else if s = "error" then .error
  else .normal

/-- Modelled from the spec: a named progress bar (state, optional percent,
optional label), keyed by id in an insertion-ordered map. -/
structure ProgressBar where
  state : PBState := .normal
  percent : Option String := none
  label : Option String := none
deriving DecidableEq, Repr

/-- Modelled from the spec: normalization forms selectable on the terminal;
the default is NFC. -/
inductive NormForm where
  | disabled
  | nfc
  | nfd
  | nfkc
  | nfkd
deriving DecidableEq, Repr

/-- Modelled from the spec: semantic events collected by the event bus
(subset covering the kinds the claims exercise; payloads are the typed
fields the Python boundary exposes as string maps). -/
inductive Event where
  | bell
  | userVarChanged (name value : String) (oldValue : Option String)
  | progressBarChanged (action : String) (id : Option String)
      (state : Option String) (percent : Option String) (label : Option String)
  | cwdChanged (cwd : Option String) (hostname : Option String)
      (username : Option String)
  | remoteHostTransition (oldHostname : Option String)
      (newHostname : Option String) (oldUsername : Option String)
      (newUsername : Option String)
  | zoneOpened (id : Nat) (kind : ZoneKind) (absRowStart : Nat)
  | zoneClosed (id : Nat) (kind : ZoneKind) (absRowStart : Nat)
      (absRowEnd : Nat) (exitCode : Option Nat)
  | zoneScrolledOut (id : Nat) (kind : ZoneKind)
deriving DecidableEq, Repr

/-- Modelled from the spec: a trigger action: an action-type tag plus flat
string parameters, as constructed from the Python binding. -/
structure TriggerAction where
  actionType : String
  params : List (String × String) := []
deriving DecidableEq, Repr

/-- Modelled from the spec: a registered trigger. -/
structure Trigger where
  id : Nat
  name : String
  pattern : String
  actions : List TriggerAction
  enabled : Bool
deriving DecidableEq, Repr

/-- Modelled from the spec: a trigger match (row, matched line text, and
captures including group 0). -/
structure TriggerMatch where
  row : Nat
  text : String
  captures : List String
deriving DecidableEq, Repr

/-- Modelled from the spec: a highlight overlay registered by a trigger
Highlight action. -/
structure Highlight where
  row : Nat
  colStart : Nat
  colEnd : Nat
  fg : Option (Nat × Nat × Nat)
  bg : Option (Nat × Nat × Nat)
deriving DecidableEq, Repr

/-- Modelled from the spec: a graphics protocol tag. -/
inductive GProtocol where
  | sixel
  | kitty
  | itermInline
deriving DecidableEq, Repr

/-- Modelled from the spec: a placement display mode. -/
inductive GDisplayMode where
  | inline
  | absolute
  | floating
deriving DecidableEq, Repr

/-- Modelled from the spec: placement metadata of a stored graphic. -/
structure GPlacement where
  displayMode : GDisplayMode
  row : Nat
  col : Nat
  zIndex : Int
deriving DecidableEq, Repr

/-- Modelled from the spec: a decoded graphic with protocol, pixel
dimensions, placement, and pixel bytes. -/
structure Graphic where
  protocol : GProtocol
  width : Nat
  height : Nat
  placement : GPlacement
  pixels : List Nat
deriving DecidableEq, Repr

/-- Modelled from the spec: the parser state machine states the embedding
needs (Ground, Escape, CSI accumulation, OSC string with its ESC-prefixed
ST terminator, and UTF-8 continuation). -/
inductive PState where
  | ground
  | escape
  | csi (priv : Bool) (ps : List Nat) (cur : Nat)
  | osc (payload : List Nat)
  | oscEsc (payload : List Nat)
  | utf8acc (acc : Nat) (need : Nat)
deriving DecidableEq, Repr

/-- Modelled from the spec: the terminal core state: screen model (primary
grid with scrollback, transient alternate grid, cursor, SGR style), parser
state, zone tracker, event queue, user variables, named progress bars,
remote host, normalization form, trigger engine, and graphics store. -/
structure TermState where
  cols : Nat
  rows : Nat
  scrollLimit : Nat
  pstate : PState
  grid : List (List Cell)
  altGrid : List (List Cell)
  altActive : Bool
  scrollback : List (List Cell)
  evicted : Nat
  curRow : Nat
  curCol : Nat
  style : Style
  savedAlt : Option (Nat × Nat × Style)
  zones : List Zone
  nextZoneId : Nat
  userVars : List (String × String)
  progressBars : List (String × ProgressBar)
  events : List Event
  normForm : NormForm
  hostname : Option String
  username : Option String
  cwd : Option String
  triggers : List Trigger
  nextTriggerId : Nat
  pendingScanRows : List Nat
  pendingMatches : List TriggerMatch
  highlights : List Highlight
  graphics : List Graphic
deriving Repr

/-- A fresh terminal, per `new(cols, rows, scrollback_limit)`: primary
screen active, ground parser state, default style, NFC normalization. -/
def newTerminal (cols rows scrollLimit : Nat) : TermState where
  cols := cols
  rows := rows
  scrollLimit := scrollLimit
  pstate := .ground
  grid := blankGrid cols rows
  altGrid := blankGrid cols rows
  altActive := false
  scrollback := []
  evicted := 0
  curRow := 0
  curCol := 0
  style := Style.init
  savedAlt := none
  zones := []
  nextZoneId := 1
  userVars := []
  progressBars := []
  events := []
  normForm := .nfc
  hostname := none
  username := none
  cwd := none
  triggers := []
  nextTriggerId := 1
  pendingScanRows := []
  pendingMatches := []
  highlights := []
  graphics := []

/-! ## Unicode properties and normalization (spec sections 4.1, 4.2 and the
normalization API of section 6).  The full UCD tables are embedded data in
the real implementation; the embedding carries representative entries
covering the combining marks and canonical compositions the claims use. -/

/-- Modelled from the spec: is the scalar a combining mark (zero-width,
grouped with its base into one grapheme cluster)?  Representative UCD
ranges. -/
def isCombining (c : Nat) : Bool :=
  (0x300 ≤ c && c ≤ 0x36F) || (0x1AB0 ≤ c && c ≤ 0x1AFF) ||
  (0x20D0 ≤ c && c ≤ 0x20FF) || (0xFE20 ≤ c && c ≤ 0xFE2F)

/-- Modelled from the spec: UAX 11 East Asian width, narrow ambiguous
width.  Representative wide ranges; combining marks are width 0 and are
handled before this is consulted. -/
def scalarWidth (c : Nat) : Nat :=
  if (0x1100 ≤ c && c ≤ 0x115F) || (0x2E80 ≤ c && c ≤ 0x303E) ||
     (0x3041 ≤ c && c ≤ 0x33FF) || (0x3400 ≤ c && c ≤ 0x4DBF) ||
     (0x4E00 ≤ c && c ≤ 0x9FFF) || (0xAC00 ≤ c && c ≤ 0xD7A3) ||
     (0xF900 ≤ c && c ≤ 0xFAFF) || (0xFF00 ≤ c && c ≤ 0xFF60) then 2
  else 1

/-- Modelled from the spec: canonical composition of a base scalar with a
combining mark (UCD canonical composition; representative entries for
Latin vowels with acute and grave). -/
def composePair (a b : Nat) : Option Nat :=
  if b = 0x301 then
    if a = 0x61 then some 0xE1
    else if a = 0x65 then some 0xE9
    else if a = 0x69 then some 0xED
    else if a = 0x6F then some 0xF3
    else if a = 0x75 then some 0xFA
    else none
  else if b = 0x300 then
    if a = 0x61 then some 0xE0
    else if a = 0x65 then some 0xE8
    else none
  else none

/-- NFC composition of a grapheme cluster: repeatedly compose the leading
base with the following mark. -/
def nfcCompose : List Nat → List Nat
  | [] => []
  | a :: rest => go a rest
where
  /-- Compose the running base scalar with the remaining marks. -/
  go : Nat → List Nat → List Nat
  | a, [] => [a]
  | a, b :: rest =>
    match composePair a b with
    | some c => go c rest
    | none => a :: go b rest

/-- Apply the active normalization form to a grapheme cluster.  Only NFC
changes clusters in this embedding (decomposition tables are external UCD
data the sample does not carry; the disabled form is the identity by
definition). -/
def applyNorm (form : NormForm) (g : List Nat) : List Nat :=
  match form with
  | .nfc => nfcCompose g
  | _ => g

/-! ## Screen model operations (spec section 4.2) -/

/-- Write one cell at a grid position. -/
def setCell (g : List (List Cell)) (r c : Nat) (cell : Cell) :
    List (List Cell) :=
  listModify (fun row => listModify (fun _ => cell) c row) r g

/-- The grid the cursor writes to (alternate when active). -/
def activeGrid (t : TermState) : List (List Cell) :=
  if t.altActive then t.altGrid else t.grid

/-- Store a grid as the active one. -/
def setActiveGrid (t : TermState) (g : List (List Cell)) : TermState :=
  if t.altActive then { t with altGrid := g } else { t with grid := g }

/-- The absolute row ID of the current cursor row (spec section 4.2:
`first_scrollback_id + scrollback_len + row_offset`). -/
def curAbsRow (t : TermState) : Nat :=
  t.evicted + t.scrollback.length + t.curRow

/-- Record that the cursor is leaving the current primary-screen row, making
it eligible for trigger scanning (spec section 4.6). -/
def noteRowFinalized (t : TermState) : TermState :=
  if t.altActive then t
  else { t with pendingScanRows := t.pendingScanRows ++ [curAbsRow t] }

/-- Remove zones whose whole extent was evicted (emitting ZoneScrolledOut)
and clamp the start of the others to the new oldest retained ID (spec
section 4.3). -/
def evictZones (oldest : Nat) (t : TermState) : TermState :=
  let keep := fun (z : Zone) =>
    match z.absRowEnd with
    | some e => oldest ≤ e
    | none => true
  let gone := t.zones.filter (fun z => !keep z)
  { t with
    zones := (t.zones.filter keep).map
      (fun z => { z with absRowStart := max z.absRowStart oldest }),
    events := t.events ++ gone.map (fun z => .zoneScrolledOut z.id z.zoneType) }

/-- Scroll the active screen up one row.  The primary screen pushes the top
row into the scrollback ring (evicting the oldest row beyond the limit);
the alternate screen has no scrollback. -/
def scrollUp (t : TermState) : TermState :=
  if t.altActive then
    { t with altGrid := t.altGrid.drop 1 ++ [blankRow t.cols] }
  else
    let top := t.grid.headD (blankRow t.cols)
    let t := { t with grid := t.grid.drop 1 ++ [blankRow t.cols],
                      scrollback := t.scrollback ++ [top] }
    if t.scrollLimit < t.scrollback.length then
      evictZones (t.evicted + 1)
        { t with scrollback := t.scrollback.drop 1, evicted := t.evicted + 1 }
    else t

/-- Line feed: finalize the current row; move down, scrolling at the bottom
margin. -/
def lineFeed (t : TermState) : TermState :=
  let t := noteRowFinalized t
  if t.curRow + 1 < t.rows then { t with curRow := t.curRow + 1 }
  else scrollUp t

/-- Autowrap to the start of the next row before printing past the right
margin (DECAWM is on by default and stays on in this embedding). -/
def wrapLine (t : TermState) : TermState :=
  { lineFeed t with curCol := 0 }

/-- Merge a combining mark into the cell left of the cursor, applying the
active normalization form to the resulting cluster (spec sections 4.1
grapheme clustering and 6 normalization). -/
def mergeCombining (t : TermState) (c : Nat) : TermState :=
  let col := t.curCol - 1
  let g := activeGrid t
  let row := g.getD t.curRow []
  let cell := row.getD col (blankCell t.style)
  let cell2 := { cell with grapheme := applyNorm t.normForm (cell.grapheme ++ [c]) }
  setActiveGrid t (setCell g t.curRow col cell2)

/-- Print one scalar at the cursor: combining marks join the previous cell;
other scalars are written with the current style and advance the cursor,
wrapping first when they do not fit. -/
def putScalar (t : TermState) (c : Nat) : TermState :=
  if isCombining c then
    if t.curCol = 0 then t else mergeCombining t c
  else
    let w := scalarWidth c
    let t := if t.cols < t.curCol + w then wrapLine t else t
    let cell : Cell := ⟨applyNorm t.normForm [c], t.style⟩
    let g := setCell (activeGrid t) t.curRow t.curCol cell
    let g := if w = 2 then setCell g t.curRow (t.curCol + 1) ⟨[], t.style⟩ else g
    let t := setActiveGrid t g
    { t with curCol := t.curCol + w }

/-! ## Alternate screen (spec section 4.2, mode 1049) -/

/-- DECSET 1049: save cursor and SGR, switch to the alternate screen and
clear it. -/
def enterAlt (t : TermState) : TermState :=
  if t.altActive then t
  else
    { t with altActive := true,
             savedAlt := some (t.curRow, t.curCol, t.style),
             altGrid := blankGrid t.cols t.rows }

/-- DECRST 1049: return to the primary screen, restore the saved cursor and
SGR, and discard the transient alternate buffer. -/
def exitAlt (t : TermState) : TermState :=
  if t.altActive then
    match t.savedAlt with
    | some (r, c, st) =>
      { t with altActive := false, altGrid := blankGrid t.cols t.rows,
               curRow := r, curCol := c, style := st, savedAlt := none }
    | none =>
      { t with altActive := false, altGrid := blankGrid t.cols t.rows }
  else t

/-! ## SGR (spec section 4.2) -/

/-- Fold SGR parameters into a style (subset: reset, attribute set/clear,
16-color, 256-color and truecolor via 38/48). -/
def sgrFold (st : Style) : List Nat → Style
  | [] => st
  | 0 :: rest => sgrFold {} rest
  | 1 :: rest => sgrFold { st with bold := true } rest
  | 2 :: rest => sgrFold { st with dim := true } rest
  | 3 :: rest => sgrFold { st with italic := true } rest
  | 4 :: rest => sgrFold { st with underline := true } rest
  | 5 :: rest => sgrFold { st with blink := true } rest
  | 7 :: rest => sgrFold { st with reverseVideo := true } rest
  | 8 :: rest => sgrFold { st with invisible := true } rest
  | 9 :: rest => sgrFold { st with strikethrough := true } rest
  | 22 :: rest => sgrFold { st with bold := false, dim := false } rest
  | 23 :: rest => sgrFold { st with italic := false } rest
  | 24 :: rest => sgrFold { st with underline := false } rest
  | 25 :: rest => sgrFold { st with blink := false } rest
  | 27 :: rest => sgrFold { st with reverseVideo := false } rest
  | 28 :: rest => sgrFold { st with invisible := false } rest
  | 29 :: rest => sgrFold { st with strikethrough := false } rest
  | 38 :: 5 :: n :: rest => sgrFold { st with fg := .indexed n } rest
  | 38 :: 2 :: r :: g :: b :: rest => sgrFold { st with fg := .rgb r g b } rest
  | 39 :: rest => sgrFold { st with fg := .default } rest
  | 48 :: 5 :: n :: rest => sgrFold { st with bg := .indexed n } rest
  | 48 :: 2 :: r :: g :: b :: rest => sgrFold { st with bg := .rgb r g b } rest
  | 49 :: rest => sgrFold { st with bg := .default } rest
  | p :: rest =>
    if 30 ≤ p ∧ p ≤ 37 then sgrFold { st with fg := .indexed (p - 30) } rest
    else if 40 ≤ p ∧ p ≤ 47 then sgrFold { st with bg := .indexed (p - 40) } rest
    else if 90 ≤ p ∧ p ≤ 97 then
      sgrFold { st with fg := .indexed (p - 90 + 8) } rest
    else if 100 ≤ p ∧ p ≤ 107 then
      sgrFold { st with bg := .indexed (p - 100 + 8) } rest
    else sgrFold st rest

/-! ## Zone tracker (spec section 4.4) -/

/-- Close the open zone, if any, at the row before the cursor's (clamped to
the zone's start), stamping the optional exit code and emitting ZoneClosed. -/
def closeOpenZone (t : TermState) (exit : Option Nat) : TermState :=
  let endRow := curAbsRow t - 1
  let pairs := t.zones.map (fun z =>
    if z.absRowEnd.isNone then
      let e := max z.absRowStart endRow
      ({ z with absRowEnd := some e, exitCode := exit },
        some (Event.zoneClosed z.id z.zoneType z.absRowStart e exit))
    else (z, none))
  { t with zones := pairs.map Prod.fst,
           events := t.events ++ pairs.filterMap Prod.snd }

/-- Open a new zone of the given kind at the cursor's absolute row, with the
next monotonic zone id, emitting ZoneOpened. -/
def openZone (t : TermState) (kind : ZoneKind) : TermState :=
  { t with zones := t.zones ++ [⟨kind, curAbsRow t, none, none, t.nextZoneId⟩],
           nextZoneId := t.nextZoneId + 1,
           events := t.events ++ [.zoneOpened t.nextZoneId kind (curAbsRow t)] }

/-- OSC 133 dispatch: A opens a prompt zone, B a command zone, C an output
zone (each closing the open zone first); D closes with an optional exit
code.  Zones are suspended while the alternate screen is active. -/
def handle133 (t : TermState) (m : List Nat) : TermState :=
  if t.altActive then t
  else
    match m with
    | 65 :: _ => openZone (closeOpenZone t none) .prompt
    | 66 :: _ => openZone (closeOpenZone t none) .command
    | 67 :: _ => openZone (closeOpenZone t none) .output
    | 68 :: rest =>
      let exit := match rest with
        | 59 :: ds => natOfDigits ds
        | _ => none
      closeOpenZone t exit
    | _ => t

/-! ## OSC 934 named progress bars (spec section 4.7) -/

/-- Fold one `key=value` part into a progress bar record. -/
def pbApplyKV (bar : ProgressBar) (part : List Nat) : ProgressBar :=
  match splitFirst 61 part with
  | (k, some v) =>
    let ks := bytesToStr k
    if ks = "state" then { bar with state := parsePBState (bytesToStr v) }
    else if ks = "percent" then { bar with percent := some (bytesToStr v) }
    else if ks = "label" then { bar with label := some (bytesToStr v) }
    else bar
  | (_, none) => bar

/-- OSC 934 dispatch: `set id;k=v…` replaces, `remove id` deletes,
`remove_all` clears; each mutation emits `progress_bar_changed`. -/
def handle934 (t : TermState) (p : List Nat) : TermState :=
  match splitAll 59 p with
  | action :: rest =>
    let act := bytesToStr action
    if act = "set" then
      match rest with
      | idB :: kvs =>
        let id := bytesToStr idB
        let bar := kvs.foldl pbApplyKV {}
        { t with progressBars := assocSet id bar t.progressBars,
                 events := t.events ++ [.progressBarChanged "set" (some id)
                   (some bar.state.name) bar.percent bar.label] }
      | [] => t
    else if act = "remove" then
      match rest with
      | idB :: _ =>
        let id := bytesToStr idB
        match assocGet id t.progressBars with
        | some _ =>
          { t with progressBars := assocDel id t.progressBars,
                   events := t.events ++
                     [.progressBarChanged "remove" (some id) none none none] }
        | none => t
      | [] => t
    else if act = "remove_all" then
      { t with progressBars := [],
               events := t.events ++
                 [.progressBarChanged "remove_all" none none none none] }
    else t
  | [] => t

/-! ## User variables and remote host (spec section 4.7) -/

/-- Set a user variable; a `user_var_changed` event fires only when the
value actually changes (including the first set). -/
def setUserVar (t : TermState) (name value : String) : TermState :=
  if assocGet name t.userVars = some value then t
  else { t with userVars := assocSet name value t.userVars,
                events := t.events ++
                  [.userVarChanged name value (assocGet name t.userVars)] }

/-- OSC 1337 RemoteHost: `user@host` or `host`; `localhost` clears the
hostname (keeping the username); emits `remote_host_transition` with
old/new hostname+username and a `cwd_changed` event carrying the new
host/user (the stored cwd itself is untouched). -/
def handleRemoteHost (t : TermState) (p : List Nat) : TermState :=
  if p = [] then t
  else
    let (newUser, hostB) := match splitFirst 64 p with
      | (u, some h) => (some (bytesToStr u), h)
      | (u, none) => (t.username, u)
    let hostStr := bytesToStr hostB
    let newHost := if hostStr = "localhost" then none else some hostStr
    { t with hostname := newHost, username := newUser,
             events := t.events ++
               [.remoteHostTransition t.hostname newHost t.username newUser,
                .cwdChanged t.cwd newHost newUser] }

/-- OSC 1337 dispatch (subset: SetUserVar with base64 payload, RemoteHost). -/
def handle1337 (t : TermState) (p : List Nat) : TermState :=
  if bytesStartWith (strToBytes "SetUserVar=") p then
    match splitFirst 61 (p.drop 11) with
    | (nameB, some valB) =>
      match b64Decode valB with
      | some bytes => setUserVar t (bytesToStr nameB) (bytesToStr bytes)
      | none => t
    | (_, none) => t
  else if bytesStartWith (strToBytes "RemoteHost=") p then
    handleRemoteHost t (p.drop 11)
  else t

/-- OSC 7 current working directory (`file://host/path`): stores the path
and emits `cwd_changed`; a changed non-empty host part also updates the
hostname with a `remote_host_transition`. -/
def handle7 (t : TermState) (p : List Nat) : TermState :=
  if bytesStartWith (strToBytes "file://") p then
    let rest := p.drop 7
    let (hostB, pathB) := match splitFirst 47 rest with
      | (h, some rest2) => (h, 47 :: rest2)
      | (h, none) => (h, ([] : List Nat))
    let path := bytesToStr pathB
    let t1 := { t with cwd := some path,
                       events := t.events ++
                         [.cwdChanged (some path) t.hostname t.username] }
    if hostB = [] then t1
    else
      let hostStr := bytesToStr hostB
      if t.hostname = some hostStr then t1
      else
        { t1 with hostname := some hostStr,
                  events := t1.events ++
                    [.remoteHostTransition t.hostname (some hostStr)
                      t.username t.username] }
  else t

/-- OSC dispatch over the accumulated payload (spec section 4.2, subset:
7, 133, 934, 1337). -/
def oscDispatch (t : TermState) (p : List Nat) : TermState :=
  if bytesStartWith (strToBytes "133;") p then handle133 t (p.drop 4)
  else if bytesStartWith (strToBytes "934;") p then handle934 t (p.drop 4)
  else if bytesStartWith (strToBytes "1337;") p then handle1337 t (p.drop 5)
  else if bytesStartWith (strToBytes "7;") p then handle7 t (p.drop 2)
  else t

/-! ## CSI dispatch and the byte-stream state machine (spec sections 4.1,
4.2) -/

/-- Apply DECSET/DECRST for one private mode (subset: 1049). -/
def applyMode (t : TermState) (set : Bool) (p : Nat) : TermState :=
  if p = 1049 then (if set then enterAlt t else exitAlt t) else t

/-- CSI dispatch (subset: private mode set/reset, SGR, CUP). -/
def csiDispatch (t : TermState) (priv : Bool) (params : List Nat)
    (final : Nat) : TermState :=
  if priv then
    if final = 104 then params.foldl (fun t p => applyMode t true p) t
    else if final = 108 then params.foldl (fun t p => applyMode t false p) t
    else t
  else if final = 109 then { t with style := sgrFold t.style params }
  else if final = 72 then
    let r := (params.getD 0 1) - 1
    let c := (params.getD 1 1) - 1
    { t with curRow := min r (t.rows - 1), curCol := min c (t.cols - 1) }
  else t

/-- Set the parser state. -/
def setP (t : TermState) (p : PState) : TermState := { t with pstate := p }

/-- One byte in Ground state: C0 execution, UTF-8 lead bytes, printing. -/
def stepGround (t : TermState) (b : Nat) : TermState :=
  if b = 0x1B then setP t .escape
  else if b = 0x0A then lineFeed t
  else if b = 0x0D then { t with curCol := 0 }
  else if b = 0x08 then { t with curCol := t.curCol - 1 }
  else if b = 0x07 then { t with events := t.events ++ [.bell] }
  else if b < 0x20 then t
  else if b < 0x80 then putScalar t b
  else if b < 0xC0 then putScalar t 0xFFFD
  else if b < 0xE0 then setP t (.utf8acc (b - 0xC0) 1)
  else if b < 0xF0 then setP t (.utf8acc (b - 0xE0) 2)
  else setP t (.utf8acc (b - 0xF0) 3)

/-- One byte of the parser state machine. -/
def step (t : TermState) (b : Nat) : TermState :=
  match t.pstate with
  | .ground => stepGround t b
  | .escape =>
    if b = 0x5B then setP t (.csi false [] 0)
    else if b = 0x5D then setP t (.osc [])
    else if b = 0x1B then t
    else setP t .ground
  | .csi priv ps cur =>
    if b = 0x3F then setP t (.csi true ps cur)
    else if 48 ≤ b ∧ b ≤ 57 then setP t (.csi priv ps (cur * 10 + (b - 48)))
    else if b = 59 then setP t (.csi priv (ps ++ [cur]) 0)
    else if 0x40 ≤ b ∧ b ≤ 0x7E then
      csiDispatch (setP t .ground) priv (ps ++ [cur]) b
    else if b = 0x1B then setP t .escape
    else t
  | .osc payload =>
    if b = 0x07 then oscDispatch (setP t .ground) payload
    else if b = 0x1B then setP t (.oscEsc payload)
    else setP t (.osc (payload ++ [b]))
  | .oscEsc payload =>
    if b = 0x5C then oscDispatch (setP t .ground) payload
    else setP t .ground
  | .utf8acc acc need =>
    if 0x80 ≤ b ∧ b < 0xC0 then
      let acc2 := acc * 64 + (b - 0x80)
      if need ≤ 1 then putScalar (setP t .ground) acc2
      else setP t (.utf8acc acc2 (need - 1))
    else stepGround (putScalar (setP t .ground) 0xFFFD) b

/-- Feed a byte slice through the parser and interpreter, per `process`. -/
def process (t : TermState) (bs : List Nat) : TermState :=
  bs.foldl step t

/-- Feed a string, per the binding's `process_str` (UTF-8 bytes of the
string). -/
def process_str (t : TermState) (s : String) : TermState :=
  process t (strToBytes s)

/-! ## Query API (spec section 6) -/

/-- All scalars of a row, in order (continuation sentinels are empty and
contribute nothing). -/
def rowScalars (row : List Cell) : List Nat :=
  (row.map Cell.grapheme).flatten

/-- Drop trailing blanks from a scalar list. -/
def trimTrailing (cs : List Nat) : List Nat :=
  (cs.reverse.dropWhile (fun c => c = 32)).reverse

/-- The plain text of a row, trailing blanks trimmed. -/
def rowText (row : List Cell) : String :=
  scalarsToStr (trimTrailing (rowScalars row))

/-- The text of the row with the given absolute ID, when it is retained in
scrollback or on the primary screen. -/
def absRowText (t : TermState) (a : Nat) : Option String :=
  if a < t.evicted then none
  else if a < t.evicted + t.scrollback.length then
    some (rowText (t.scrollback.getD (a - t.evicted) []))
  else if a < t.evicted + t.scrollback.length + t.rows then
    some (rowText (t.grid.getD (a - t.evicted - t.scrollback.length) []))
  else none

/-- Per `get_zones()`: the ordered zone list. -/
def get_zones (t : TermState) : List Zone := t.zones

/-- Per `get_zone_at(abs_row)`: the zone containing the absolute row (an
open zone extends to the cursor row). -/
def get_zone_at (t : TermState) (a : Nat) : Option Zone :=
  t.zones.find? (fun z =>
    decide (z.absRowStart ≤ a) && decide (a ≤ z.absRowEnd.getD (curAbsRow t)))

/-- Per `get_zone_text(abs_row)`: the joined text of the rows covered by the
zone containing the given absolute row. -/
def get_zone_text (t : TermState) (a : Nat) : Option String :=
  match get_zone_at t a with
  | none => none
  | some z =>
    let e := z.absRowEnd.getD (curAbsRow t)
    let lines := (List.range (e + 1 - z.absRowStart)).map
      (fun i => (absRowText t (z.absRowStart + i)).getD "")
    some (String.intercalate "\n" lines)

/-- Per `get_char(col, row)`: the grapheme at a grid position of the active
screen. -/
def get_char (t : TermState) (col row : Nat) : String :=
  scalarsToStr (((activeGrid t).getD row []).getD col (blankCell Style.init)).grapheme

/-- Per `poll_events()`: drain and return all queued events. -/
def poll_events (t : TermState) : List Event × TermState :=
  (t.events, { t with events := [] })

/-- Per `get_user_var(name)`. -/
def get_user_var (t : TermState) (name : String) : Option String :=
  assocGet name t.userVars

/-- Per `named_progress_bars()`: the insertion-ordered id-keyed map. -/
def named_progress_bars (t : TermState) : List (String × ProgressBar) :=
  t.progressBars

/-- Per `normalization_form()`. -/
def normalization_form (t : TermState) : NormForm := t.normForm

/-- Per `shell_integration_state().cwd`. -/
def shell_integration_cwd (t : TermState) : Option String := t.cwd

/-- Is a substring present?  (Used to state the "text contains" clauses.) -/
def strContainsSub (hay needle : String) : Bool :=
  go hay.data needle.data
where
  /-- Check the needle at every suffix start. -/
  go : List Char → List Char → Bool
  | hs, ns =>
    if ns.isPrefixOf hs then true
    else match hs with
      | [] => false
      | _ :: rest => go rest ns

/-! ## Trigger engine (spec section 4.6).  The regex engine is modelled from
the spec's contract: unanchored UTF-8 search with numbered group captures,
greedy quantifiers, perl-style classes and bracket sets; invalid patterns
are rejected at registration.  Matching uses explicit fuel (a backtracking
search over a finite text always terminates; the fuel below is ample for
the concrete scans the claims evaluate). -/

/-- Character classes of the modelled regex subset. -/
inductive RClass where
  | space
  | nonspace
  | digit
  | nondigit
  | word
  | nonword
  | any
  | set (cs : List Nat) (neg : Bool)
deriving DecidableEq, Repr

/-- Quantifiers of the modelled regex subset. -/
inductive RQuant where
  | one
  | plus
  | star
  | opt
deriving DecidableEq, Repr

mutual
/-- A regex atom: literal, class, or numbered capture group. -/
inductive RAtom where
  | lit (c : Nat)
  | cls (k : RClass)
  | group (idx : Nat) (inner : RSeq)

/-- A regex sequence of quantified atoms. -/
inductive RSeq where
  | nil
  | cons (a : RAtom) (q : RQuant) (rest : RSeq)
end

/-- Is the scalar regex whitespace? -/
def isSpaceScalar (c : Nat) : Bool :=
  c = 32 || c = 9 || c = 10 || c = 11 || c = 12 || c = 13

/-- Is the scalar a regex word character? -/
def isWordScalar (c : Nat) : Bool :=
  (48 ≤ c && c ≤ 57) || (65 ≤ c && c ≤ 90) || (97 ≤ c && c ≤ 122) || c = 95

/-- Does a scalar match a character class? -/
def classMatch (k : RClass) (c : Nat) : Bool :=
  match k with
  | .space => isSpaceScalar c
  | .nonspace => !isSpaceScalar c
  | .digit => 48 ≤ c && c ≤ 57
  | .nondigit => !(48 ≤ c && c ≤ 57)
  | .word => isWordScalar c
  | .nonword => !isWordScalar c
  | .any => c ≠ 10
  | .set cs neg => if neg then !(cs.contains c) else cs.contains c

/-- Collect the member scalars of a bracket set up to the closing bracket;
`none` when the bracket is unclosed. -/
def parseSetBody : List Nat → Option (List Nat × List Nat)
  | [] => none
  | 93 :: rest => some ([], rest)
  | c :: rest => do
      let (cs, rest2) ← parseSetBody rest
      pure (c :: cs, rest2)

/-- Parse an optional quantifier character. -/
def parseQuant : List Nat → RQuant × List Nat
  | 43 :: rest => (.plus, rest)
  | 42 :: rest => (.star, rest)
  | 63 :: rest => (.opt, rest)
  | cs => (.one, cs)

mutual
/-- Recursive-descent parse of one atom; `gi` numbers capture groups. -/
def parseAtom (fuel : Nat) (cs : List Nat) (gi : Nat) :
    Option (RAtom × List Nat × Nat) :=
  match fuel with
  | 0 => none
  | fuel + 1 =>
    match cs with
    | [] => none
    | 40 :: rest => do
        let (inner, rest2, gi2) ← parseSeq fuel rest (gi + 1)
        match rest2 with
        | 41 :: rest3 => pure (.group gi inner, rest3, gi2)
        | _ => none
    | 41 :: _ => none
    | 91 :: rest =>
        match rest with
        | 94 :: rest2 => do
            let (cs2, rest3) ← parseSetBody rest2
            pure (.cls (.set cs2 true), rest3, gi)
        | _ => do
            let (cs2, rest3) ← parseSetBody rest
            pure (.cls (.set cs2 false), rest3, gi)
    | 92 :: e :: rest =>
        if e = 115 then some (.cls .space, rest, gi)
        else if e = 83 then some (.cls .nonspace, rest, gi)
        else if e = 100 then some (.cls .digit, rest, gi)
        else if e = 68 then some (.cls .nondigit, rest, gi)
        else if e = 119 then some (.cls .word, rest, gi)
        else if e = 87 then some (.cls .nonword, rest, gi)
        else some (.lit e, rest, gi)
    | [92] => none
    | 46 :: rest => some (.cls .any, rest, gi)
    | c :: rest =>
        if c = 43 || c = 42 || c = 63 || c = 124 || c = 123 || c = 94 ||
            c = 36 then none
        else some (.lit c, rest, gi)

/-- Recursive-descent parse of a sequence, stopping at `)` or the end. -/
def parseSeq (fuel : Nat) (cs : List Nat) (gi : Nat) :
    Option (RSeq × List Nat × Nat) :=
  match fuel with
  | 0 => none
  | fuel + 1 =>
    match cs with
    | [] => some (.nil, [], gi)
    | 41 :: _ => some (.nil, cs, gi)
    | _ => do
        let (a, rest, gi2) ← parseAtom fuel cs gi
        let (q, rest2) := parseQuant rest
        let (s, rest3, gi3) ← parseSeq fuel rest2 gi2
        pure (.cons a q s, rest3, gi3)
end

/-- Modelled from the spec: compile a pattern string; `none` rejects the
pattern (unclosed group or bracket, dangling quantifier or escape, or a
construct outside the modelled subset).  Returns the sequence and the
number of capture slots (group 0 included). -/
def compileRegex (pattern : String) : Option (RSeq × Nat) :=
  let cs := pattern.data.map Char.toNat
  match parseSeq (cs.length + 1) cs 1 with
  | some (seq, [], gi) => some (seq, gi)
  | _ => none

mutual
/-- Backtracking match of a sequence against the text, continuation-passing;
captures map group index to matched scalars. -/
def matchSeq : Nat → RSeq → List Nat → List (Nat × List Nat) →
    (List Nat → List (Nat × List Nat) →
      Option (List Nat × List (Nat × List Nat))) →
    Option (List Nat × List (Nat × List Nat))
  | 0, _, _, _, _ => none
  | _ + 1, .nil, text, caps, k => k text caps
  | fuel + 1, .cons a q rest, text, caps, k =>
    match q with
    | .one => matchAtom fuel a text caps
        (fun t2 c2 => matchSeq fuel rest t2 c2 k)
    | .opt =>
      match matchAtom fuel a text caps
          (fun t2 c2 => matchSeq fuel rest t2 c2 k) with
      | some r => some r
      | none => matchSeq fuel rest text caps k
    | .plus => matchAtom fuel a text caps
        (fun t2 c2 => matchStar fuel a t2 c2
          (fun t3 c3 => matchSeq fuel rest t3 c3 k))
    | .star => matchStar fuel a text caps
        (fun t2 c2 => matchSeq fuel rest t2 c2 k)

/-- Greedy Kleene iteration: consume as many atom repetitions as possible,
backtracking into the continuation. -/
def matchStar : Nat → RAtom → List Nat → List (Nat × List Nat) →
    (List Nat → List (Nat × List Nat) →
      Option (List Nat × List (Nat × List Nat))) →
    Option (List Nat × List (Nat × List Nat))
  | 0, _, _, _, _ => none
  | fuel + 1, a, text, caps, k =>
    match matchAtom fuel a text caps (fun t2 c2 =>
        if t2.length < text.length then matchStar fuel a t2 c2 k
        else none) with
    | some r => some r
    | none => k text caps

/-- Match one atom at the head of the text. -/
def matchAtom : Nat → RAtom → List Nat → List (Nat × List Nat) →
    (List Nat → List (Nat × List Nat) →
      Option (List Nat × List (Nat × List Nat))) →
    Option (List Nat × List (Nat × List Nat))
  | 0, _, _, _, _ => none
  | _ + 1, .lit c, text, caps, k =>
    match text with
    | t :: rest => if t = c then k rest caps else none
    | [] => none
  | _ + 1, .cls kl, text, caps, k =>
    match text with
    | t :: rest => if classMatch kl t then k rest caps else none
    | [] => none
  | fuel + 1, .group idx inner, text, caps, k =>
    matchSeq fuel inner text caps (fun t2 c2 =>
      k t2 ((idx, text.take (text.length - t2.length)) :: c2))
end

/-- Leftmost unanchored search: try the match at each start offset; returns
(start, length, captures). -/
def regexSearch (seq : RSeq) (text : List Nat) :
    Option (Nat × Nat × List (Nat × List Nat)) :=
  go (text.length + 1) 0 text
where
  /-- Offset loop of `regexSearch`. -/
  go : Nat → Nat → List Nat → Option (Nat × Nat × List (Nat × List Nat))
  | 0, _, _ => none
  | fuel + 1, i, sub =>
    match matchSeq ((sub.length + 2) * 1000) seq sub []
        (fun rest caps => some (rest, caps)) with
    | some (rest, caps) => some (i, sub.length - rest.length, caps)
    | none =>
      match sub with
      | [] => none
      | _ :: sub2 => go fuel (i + 1) sub2

/-- Resolve the capture list (group 0 is the whole match; unmatched groups
resolve to the empty string). -/
def capsToList (numGroups : Nat) (whole : List Nat)
    (caps : List (Nat × List Nat)) : List String :=
  (List.range numGroups).map (fun i =>
    if i = 0 then scalarsToStr whole
    else
      match caps.find? (fun p => p.1 = i) with
      | some p => scalarsToStr p.2
      | none => "")

/-- The closed set of trigger action types (spec section 3, Trigger). -/
def knownActionTypes : List String :=
  ["highlight", "notify", "mark_line", "set_variable", "run_command",
   "play_sound", "send_text", "stop"]

/-- Per `add_trigger(name, pattern, actions)`: compile-checks the pattern
and validates the action types; InvalidArgument (a `ValueError` at the
binding) is reported synchronously and nothing is registered on failure. -/
def add_trigger (t : TermState) (name pattern : String)
    (actions : List TriggerAction) : Except String (TermState × Nat) :=
  match compileRegex pattern with
  | none => .error "invalid regex pattern"
  | some _ =>
    if actions.all (fun a => knownActionTypes.contains a.actionType) then
      .ok ({ t with
              triggers := t.triggers ++
                [⟨t.nextTriggerId, name, pattern, actions, true⟩],
              nextTriggerId := t.nextTriggerId + 1 }, t.nextTriggerId)
    else .error "unknown trigger action type"

/-- Parse a decimal string. -/
def parseNatStr (s : String) : Option Nat :=
  natOfDigits (s.data.map Char.toNat)

/-- Read an RGB triple from `pre_r`/`pre_g`/`pre_b` action parameters. -/
def paramsRGB (params : List (String × String)) (pre : String) :
    Option (Nat × Nat × Nat) :=
  match assocGet (pre ++ "_r") params, assocGet (pre ++ "_g") params,
      assocGet (pre ++ "_b") params with
  | some r, some g, some b =>
    match parseNatStr r, parseNatStr g, parseNatStr b with
    | some rv, some gv, some bv => some (rv, gv, bv)
    | _, _, _ => none
  | _, _, _ => none

/-- Substitute `$0`..`$9` capture references in an action parameter. -/
def substCaptures (caps : List String) (s : String) : String :=
  go s.data
where
  /-- Character loop of `substCaptures`. -/
  go : List Char → String
  | [] => ""
  | c :: d :: rest =>
    if c = Char.ofNat 36 ∧ 48 ≤ d.toNat ∧ d.toNat ≤ 57 then
      caps.getD (d.toNat - 48) "" ++ go rest
    else String.singleton c ++ go (d :: rest)
  | [c] => String.singleton c

/-- Apply one trigger action (subset: Highlight registers an overlay,
SetVariable updates the user-variable map identically to SetUserVar with
capture substitution; Notify/RunCommand/PlaySound/SendText/MarkLine emit
host-side effects outside this embedding). -/
def applyTriggerAction (t : TermState) (row colStart colEnd : Nat)
    (caps : List String) (a : TriggerAction) : TermState :=
  if a.actionType = "highlight" then
    { t with highlights := t.highlights ++
        [⟨row, colStart, colEnd, paramsRGB a.params "fg", paramsRGB a.params "bg"⟩] }
  else if a.actionType = "set_variable" then
    match assocGet "name" a.params, assocGet "value" a.params with
    | some n, some v => setUserVar t n (substCaptures caps v)
    | _, _ => t
  else t

/-- Apply the actions of a matched trigger in order; `stop` halts further
evaluation. -/
def applyTriggerActions (t : TermState) (row colStart colEnd : Nat)
    (caps : List String) : List TriggerAction → TermState
  | [] => t
  | a :: rest =>
    if a.actionType = "stop" then t
    else applyTriggerActions (applyTriggerAction t row colStart colEnd caps a)
      row colStart colEnd caps rest

/-- Scan one finalized row against one trigger: on the leftmost match,
record a TriggerMatch and apply the actions. -/
def scanRowTrigger (t : TermState) (a : Nat) (text : String) (tr : Trigger) :
    TermState :=
  if !tr.enabled then t
  else
    match compileRegex tr.pattern with
    | none => t
    | some (seq, ng) =>
      let scalars := text.data.map Char.toNat
      match regexSearch seq scalars with
      | some (start, len, caps) =>
        let whole := (scalars.drop start).take len
        let capList := capsToList ng whole caps
        let t2 := { t with pendingMatches := t.pendingMatches ++
            [⟨a, text, capList⟩] }
        applyTriggerActions t2 a start (start + len) capList tr.actions
      | none => t

/-- Per `process_trigger_scans()`: flush pending row scans (rows finalized
since the last flush, plus the current row) against the registered
triggers. -/
def process_trigger_scans (t : TermState) : TermState :=
  let rows := (t.pendingScanRows ++ [curAbsRow t]).eraseDups
  let t2 := { t with pendingScanRows := [] }
  rows.foldl (fun acc a =>
    match absRowText acc a with
    | some text => acc.triggers.foldl (fun acc2 tr => scanRowTrigger acc2 a text tr) acc
    | none => acc) t2

/-- Per `poll_trigger_matches()`: drain the recorded matches. -/
def poll_trigger_matches (t : TermState) : List TriggerMatch × TermState :=
  (t.pendingMatches, { t with pendingMatches := [] })

/-- Per `get_trigger_highlights()`. -/
def get_trigger_highlights (t : TermState) : List Highlight := t.highlights

/-- Per `clear_trigger_highlights()`. -/
def clear_trigger_highlights (t : TermState) : TermState :=
  { t with highlights := [] }

/-! ## Graphics export/import (spec section 4.8).  The JSON text layer is
abstracted as a structured document; pixel data is carried base64-encoded
as in the v1 schema. -/

/-- Wire name of a graphics protocol. -/
def protocolName : GProtocol → String
  | .sixel => "Sixel"
  | .kitty => "Kitty"
  | .itermInline => "ITermInline"

/-- Parse a graphics protocol name. -/
def parseProtocol (s : String) : Option GProtocol :=
  if s = "Sixel" then some .sixel
  else if s = "Kitty" then some .kitty
  else if s = "ITermInline" then some .itermInline
  else none

/-- Wire name of a display mode. -/
def displayModeName : GDisplayMode → String
  | .inline => "Inline"
  | .absolute => "Absolute"
  | .floating => "Floating"

/-- Parse a display-mode name. -/
def parseDisplayMode (s : String) : Option GDisplayMode :=
  if s = "Inline" then some .inline
  else if s = "Absolute" then some .absolute
  else if s = "Floating" then some .floating
  else none

/-- One placement entry of the graphics export document (v1 schema). -/
structure GraphicsExportEntry where
  protocol : String
  width : Nat
  height : Nat
  displayMode : String
  row : Nat
  col : Nat
  zIndex : Int
  dataB64 : String
deriving DecidableEq, Repr

/-- Modelled from the spec: the versioned graphics export document. -/
structure GraphicsExport where
  version : Nat
  placements : List GraphicsExportEntry
deriving DecidableEq, Repr

/-- Serialize one graphic into a placement entry (pixels base64-encoded). -/
def exportGraphic (g : Graphic) : GraphicsExportEntry :=
  ⟨protocolName g.protocol, g.width, g.height,
   displayModeName g.placement.displayMode, g.placement.row, g.placement.col,
   g.placement.zIndex, scalarsToStr (b64Encode g.pixels)⟩

/-- Per `export_graphics_json()`: the v1 document capturing all graphics. -/
def export_graphics_json (t : TermState) : GraphicsExport :=
  ⟨1, t.graphics.map exportGraphic⟩

/-- Deserialize one placement entry. -/
def importGraphic (e : GraphicsExportEntry) : Option Graphic := do
  let pr ← parseProtocol e.protocol
  let dm ← parseDisplayMode e.displayMode
  let px ← b64Decode (e.dataB64.data.map Char.toNat)
  pure ⟨pr, e.width, e.height, ⟨dm, e.row, e.col, e.zIndex⟩, px⟩

/-- Per `import_graphics_json(doc)`: validates the version, clears the
graphics already present, restores the document's graphics and returns the
restored count; malformed documents raise. -/
def import_graphics_json (t : TermState) (doc : GraphicsExport) :
    Except String (TermState × Nat) :=
  if doc.version ≠ 1 then .error "unsupported graphics export version"
  else
    match doc.placements.mapM importGraphic with
    | some gs => .ok ({ t with graphics := gs }, gs.length)
    | none => .error "malformed graphics export document"

/-- Per `graphics_count()`. -/
def graphics_count (t : TermState) : Nat := t.graphics.length

/-! ## General lemmas about the embedding -/

theorem char_toNat_ofNat {n : Nat} (h : n < 0xD800) :
    (Char.ofNat n).toNat = n := by
  have hv : n.isValidChar := Or.inl h
  simp [Char.ofNat, hv, Char.ofNatAux, Char.toNat, UInt32.toNat,
    BitVec.toNat_ofNatLt]

theorem scalarsToStr_data_toNat {bs : List Nat} (h : ∀ b ∈ bs, b < 0xD800) :
    (scalarsToStr bs).data.map Char.toNat = bs := by
  unfold scalarsToStr
  induction bs with
  | nil => rfl
  | cons b rest ih =>
    simp only [List.map_cons, List.cons.injEq]
    refine ⟨char_toNat_ofNat (h b (by simp)), ?_⟩
    exact ih (fun x hx => h x (by simp [hx]))

theorem utf8EncodeScalar_ascii {b : Nat} (h : b < 0x80) :
    utf8EncodeScalar b = [b] := by
  unfold utf8EncodeScalar
  rw [if_pos h]

theorem strToBytes_scalarsToStr_ascii {bs : List Nat} (h : ∀ b ∈ bs, b < 0x80) :
    strToBytes (scalarsToStr bs) = bs := by
  unfold strToBytes scalarsToStr
  induction bs with
  | nil => rfl
  | cons b rest ih =>
    have hb : b < 0x80 := h b (by simp)
    simp only [List.map_cons, List.flatten_cons, List.cons.injEq]
    rw [char_toNat_ofNat (by omega), utf8EncodeScalar_ascii hb]
    simp only [List.cons_append, List.nil_append, List.cons.injEq, true_and]
    exact ih (fun x hx => h x (by simp [hx]))

theorem strToBytes_append (s1 s2 : String) :
    strToBytes (s1 ++ s2) = strToBytes s1 ++ strToBytes s2 := by
  unfold strToBytes
  cases s1 with
  | mk d1 =>
    cases s2 with
    | mk d2 =>
      show ((d1 ++ d2).map _).flatten = _
      rw [List.map_append, List.flatten_append]

theorem strToBytes_lt {s : String} : ∀ b ∈ strToBytes s, b < 256 := by
  unfold strToBytes
  intro b hb
  simp only [List.mem_flatten, List.mem_map] at hb
  obtain ⟨l, ⟨c, _, rfl⟩, hbl⟩ := hb
  have hc := char_toNat_lt c
  revert hbl
  unfold utf8EncodeScalar
  split_ifs <;> simp <;> omega

theorem b64Char_range (n : Nat) : 43 ≤ b64Char n ∧ b64Char n ≤ 122 := by
  unfold b64Char
  split_ifs <;> omega

theorem b64Encode_range : ∀ bs : List Nat, ∀ x ∈ b64Encode bs,
    43 ≤ x ∧ x ≤ 122 := by
  intro bs
  induction bs using b64Encode.induct with
  | case1 => intro x hx; simp [b64Encode] at hx
  | case2 b1 =>
    intro x hx
    simp only [b64Encode, List.mem_cons, List.not_mem_nil, or_false] at hx
    rcases hx with rfl | rfl | rfl | rfl <;>
      first
        | exact b64Char_range _
        | omega
  | case3 b1 b2 =>
    intro x hx
    simp only [b64Encode, List.mem_cons, List.not_mem_nil, or_false] at hx
    rcases hx with rfl | rfl | rfl | rfl <;>
      first
        | exact b64Char_range _
        | omega
  | case4 b1 b2 b3 rest ih =>
    intro x hx
    simp only [b64Encode, List.mem_cons] at hx
    rcases hx with rfl | rfl | rfl | rfl | hx
    · exact b64Char_range _
    · exact b64Char_range _
    · exact b64Char_range _
    · exact b64Char_range _
    · exact ih x hx

theorem assocGet_assocSet {α : Type} (k : String) (v : α) :
    ∀ l : List (String × α), assocGet k (assocSet k v l) = some v := by
  intro l
  induction l with
  | nil => simp [assocGet, assocSet]
  | cons p rest ih =>
    obtain ⟨k2, v2⟩ := p
    by_cases hk : k2 = k
    · simp [assocSet, assocGet, hk]
    · simp only [assocSet, hk, if_false, assocGet]
      exact ih

theorem splitFirst_no_sep (sep : Nat) :
    ∀ (pre post : List Nat), (∀ b ∈ pre, b ≠ sep) →
    splitFirst sep (pre ++ sep :: post) = (pre, some post) := by
  intro pre
  induction pre with
  | nil => intro post _; simp [splitFirst]
  | cons b rest ih =>
    intro post h
    have hb : b ≠ sep := h b (by simp)
    simp only [List.cons_append, splitFirst, hb, if_false, if_pos rfl,
      List.append_eq, ih post (fun x hx => h x (by simp [hx]))]

theorem process_append (t : TermState) (a b : List Nat) :
    process t (a ++ b) = process (process t a) b := by
  unfold process
  apply List.foldl_append

/-! ## Parser step lemmas: reducing `step` at a known parser state -/

theorem setP_ground_eq (t : TermState) (hp : t.pstate = .ground) :
    setP t .ground = t := by
  cases t
  simp_all [setP]

theorem setP_setP (t : TermState) (p q : PState) :
    setP (setP t p) q = setP t q := by
  cases t
  simp [setP]

theorem step_at_ground (u : TermState) (b : Nat) (hu : u.pstate = .ground) :
    step u b = stepGround u b := by
  unfold step
  rw [hu]

theorem step_at_osc (u : TermState) (p : List Nat) (b : Nat)
    (hu : u.pstate = .osc p) :
    step u b =
      if b = 0x07 then oscDispatch (setP u .ground) p
      else if b = 0x1B then setP u (.oscEsc p)
      else setP u (.osc (p ++ [b])) := by
  unfold step
  rw [hu]

theorem process_osc_accum (bs : List Nat) :
    ∀ (t : TermState) (p : List Nat), t.pstate = .osc p →
    (∀ b ∈ bs, b ≠ 7 ∧ b ≠ 27) →
    process t bs = setP t (.osc (p ++ bs)) := by
  induction bs with
  | nil =>
    intro t p hp _
    show t = setP t (.osc (p ++ []))
    rw [List.append_nil, ← hp]
    cases t
    simp [setP]
  | cons b rest ih =>
    intro t p hp hb
    have hb1 : b ≠ 7 := (hb b (by simp)).1
    have hb2 : b ≠ 27 := (hb b (by simp)).2
    show process (step t b) rest = _
    rw [step_at_osc t p b hp, if_neg hb1, if_neg hb2]
    rw [ih (setP t (.osc (p ++ [b]))) (p ++ [b]) rfl
      (fun x hx => hb x (by simp [hx]))]
    rw [setP_setP]
    simp

/-! ## Alternate-screen lemmas (claim C2 groundwork) -/

theorem process_enter_alt (t : TermState) (hp : t.pstate = .ground)
    (halt : t.altActive = false) :
    process t [27, 91, 63, 49, 48, 52, 57, 104] =
      { t with altActive := true,
               savedAlt := some (t.curRow, t.curCol, t.style),
               altGrid := blankGrid t.cols t.rows } := by
  have s1 : step t 27 = setP t .escape := by
    rw [step_at_ground t 27 hp]; norm_num [stepGround]
  have s2 : step (setP t .escape) 91 = setP t (.csi false [] 0) := by
    norm_num [step, setP]
  have s3 : step (setP t (.csi false [] 0)) 63 = setP t (.csi true [] 0) := by
    norm_num [step, setP]
  have s4 : step (setP t (.csi true [] 0)) 49 = setP t (.csi true [] 1) := by
    norm_num [step, setP]
  have s5 : step (setP t (.csi true [] 1)) 48 = setP t (.csi true [] 10) := by
    norm_num [step, setP]
  have s6 : step (setP t (.csi true [] 10)) 52 = setP t (.csi true [] 104) := by
    norm_num [step, setP]
  have s7 : step (setP t (.csi true [] 104)) 57 = setP t (.csi true [] 1049) := by
    norm_num [step, setP]
  have s8 : step (setP t (.csi true [] 1049)) 104 =
      csiDispatch (setP (setP t (.csi true [] 1049)) .ground) true [1049] 104 := by
    norm_num [step, setP]
  simp only [process, List.foldl_cons, List.foldl_nil, s1, s2, s3, s4, s5, s6,
    s7, s8]
  norm_num [csiDispatch, applyMode, enterAlt, setP, halt]
  exact hp.symm

theorem process_exit_alt (u : TermState) (r c : Nat) (st : Style)
    (hp : u.pstate = .ground) (halt : u.altActive = true)
    (hs : u.savedAlt = some (r, c, st)) :
    process u [27, 91, 63, 49, 48, 52, 57, 108] =
      { u with altActive := false, altGrid := blankGrid u.cols u.rows,
               curRow := r, curCol := c, style := st, savedAlt := none } := by
  have s1 : step u 27 = setP u .escape := by
    rw [step_at_ground u 27 hp]; norm_num [stepGround]
  have s2 : step (setP u .escape) 91 = setP u (.csi false [] 0) := by
    norm_num [step, setP]
  have s3 : step (setP u (.csi false [] 0)) 63 = setP u (.csi true [] 0) := by
    norm_num [step, setP]
  have s4 : step (setP u (.csi true [] 0)) 49 = setP u (.csi true [] 1) := by
    norm_num [step, setP]
  have s5 : step (setP u (.csi true [] 1)) 48 = setP u (.csi true [] 10) := by
    norm_num [step, setP]
  have s6 : step (setP u (.csi true [] 10)) 52 = setP u (.csi true [] 104) := by
    norm_num [step, setP]
  have s7 : step (setP u (.csi true [] 104)) 57 = setP u (.csi true [] 1049) := by
    norm_num [step, setP]
  have s8 : step (setP u (.csi true [] 1049)) 108 =
      csiDispatch (setP (setP u (.csi true [] 1049)) .ground) true [1049] 108 := by
    norm_num [step, setP]
  simp only [process, List.foldl_cons, List.foldl_nil, s1, s2, s3, s4, s5, s6,
    s7, s8]
  norm_num [csiDispatch, applyMode, exitAlt, setP, halt, hs]
  exact hp.symm

theorem isCombining_low {b : Nat} (h : b < 0x300) : isCombining b = false := by
  unfold isCombining
  simp only [Bool.or_eq_false_iff, Bool.and_eq_false_iff,
    decide_eq_false_iff_not, not_le]
  omega

theorem scalarWidth_low {b : Nat} (h : b < 0x1100) : scalarWidth b = 1 := by
  unfold scalarWidth
  rw [if_neg]
  simp only [Bool.or_eq_true, Bool.and_eq_true, decide_eq_true_eq, not_or,
    not_and]
  omega

theorem lineFeed_alt_fields (u : TermState) (halt : u.altActive = true) :
    (lineFeed u).pstate = u.pstate ∧ (lineFeed u).altActive = true ∧
    (lineFeed u).savedAlt = u.savedAlt ∧ (lineFeed u).grid = u.grid ∧
    (lineFeed u).cols = u.cols ∧ (lineFeed u).rows = u.rows ∧
    (lineFeed u).style = u.style := by
  unfold lineFeed noteRowFinalized scrollUp
  rw [halt]
  by_cases h : u.curRow + 1 < u.rows <;> simp [h, halt]

theorem putScalar_alt_fields (u : TermState) (b : Nat)
    (halt : u.altActive = true) (hb : b < 0x300) :
    (putScalar u b).pstate = u.pstate ∧ (putScalar u b).altActive = true ∧
    (putScalar u b).savedAlt = u.savedAlt ∧ (putScalar u b).grid = u.grid ∧
    (putScalar u b).cols = u.cols ∧ (putScalar u b).rows = u.rows ∧
    (putScalar u b).style = u.style := by
  unfold putScalar
  rw [isCombining_low hb]
  simp only [Bool.false_eq_true, if_false]
  obtain ⟨h1, h2, h3, h4, h5, h6, h7⟩ := lineFeed_alt_fields u halt
  by_cases hw : u.cols < u.curCol + scalarWidth b
  · rw [if_pos hw]
    unfold wrapLine setActiveGrid activeGrid
    simp [h1, h2, h3, h4, h5, h6, h7]
  · rw [if_neg hw]
    unfold setActiveGrid activeGrid
    simp [halt]

theorem process_printables_alt (ws : List Nat) :
    ∀ u : TermState, u.pstate = .ground → u.altActive = true →
    (∀ b ∈ ws, 0x20 ≤ b ∧ b < 0x7F) →
    (process u ws).pstate = .ground ∧ (process u ws).altActive = true ∧
    (process u ws).savedAlt = u.savedAlt ∧ (process u ws).grid = u.grid ∧
    (process u ws).cols = u.cols ∧ (process u ws).rows = u.rows := by
  induction ws with
  | nil => intro u hp halt _; exact ⟨hp, halt, rfl, rfl, rfl, rfl⟩
  | cons b rest ih =>
    intro u hp halt hws
    have hb := hws b (by simp)
    have hstep : step u b = putScalar u b := by
      rw [step_at_ground u b hp]
      unfold stepGround
      rw [if_neg (by omega), if_neg (by omega), if_neg (by omega),
        if_neg (by omega), if_neg (by omega), if_neg (by omega),
        if_pos (by omega)]
    obtain ⟨h1, h2, h3, h4, h5, h6, _⟩ :=
      putScalar_alt_fields u b halt (by omega)
    have hp2 : (putScalar u b).pstate = .ground := h1.trans hp
    rw [show process u (b :: rest) = process (step u b) rest from rfl, hstep]
    obtain ⟨g1, g2, g3, g4, g5, g6⟩ := ih (putScalar u b) hp2 h2
      (fun x hx => hws x (by simp [hx]))
    exact ⟨g1, g2, g3.trans h3, g4.trans h4, g5.trans h5, g6.trans h6⟩

/-! ## OSC sequence lemmas (claims C3 and C8 groundwork) -/

theorem process_osc_seq (t : TermState) (body : List Nat)
    (hp : t.pstate = .ground) (hbody : ∀ b ∈ body, b ≠ 7 ∧ b ≠ 27) :
    process t (27 :: 93 :: body ++ [7]) = oscDispatch (setP t .ground) body := by
  have s1 : step t 27 = setP t .escape := by
    rw [step_at_ground t 27 hp]; norm_num [stepGround]
  have s2 : step (setP t .escape) 93 = setP t (.osc []) := by
    norm_num [step, setP]
  show process (step (step t 27) 93) (body ++ [7]) = _
  rw [s1, s2, process_append,
    process_osc_accum body (setP t (.osc [])) [] rfl hbody, setP_setP,
    List.nil_append]
  show step (setP t (.osc body)) 7 = _
  rw [step_at_osc _ body 7 rfl, if_pos rfl, setP_setP]

theorem oscDispatch_133 (t : TermState) (m : List Nat) :
    oscDispatch t (49 :: 51 :: 51 :: 59 :: m) = handle133 t m := by
  unfold oscDispatch
  have h133 : strToBytes "133;" = [49, 51, 51, 59] := by decide
  rw [h133]
  norm_num [bytesStartWith]

theorem handle133_alt (t : TermState) (m : List Nat)
    (halt : t.altActive = true) : handle133 t m = t := by
  unfold handle133
  rw [halt]
  simp

theorem oscDispatch_setUserVar (t : TermState) (kb e : List Nat)
    (hk : ∀ b ∈ kb, b ≠ 61) :
    oscDispatch t (49 :: 51 :: 51 :: 55 :: 59 :: 83 :: 101 :: 116 :: 85 ::
        115 :: 101 :: 114 :: 86 :: 97 :: 114 :: 61 :: (kb ++ 61 :: e)) =
      match b64Decode e with
      | some bytes => setUserVar t (bytesToStr kb) (bytesToStr bytes)
      | none => t := by
  unfold oscDispatch handle1337
  have h133 : strToBytes "133;" = [49, 51, 51, 59] := by decide
  have h934 : strToBytes "934;" = [57, 51, 52, 59] := by decide
  have h1337 : strToBytes "1337;" = [49, 51, 51, 55, 59] := by decide
  have hsuv : strToBytes "SetUserVar=" =
      [83, 101, 116, 85, 115, 101, 114, 86, 97, 114, 61] := by decide
  rw [h133, h934, h1337, hsuv]
  norm_num [bytesStartWith, List.drop]
  rw [splitFirst_no_sep 61 kb e hk]

theorem setUserVar_pstate (t : TermState) (k v : String) :
    (setUserVar t k v).pstate = t.pstate := by
  unfold setUserVar
  split_ifs <;> simp

theorem setUserVar_get (t : TermState) (k v : String) :
    get_user_var (setUserVar t k v) k = some v := by
  unfold setUserVar get_user_var
  split_ifs with h
  · exact h
  · simp [assocGet_assocSet]

theorem setUserVar_same (t : TermState) (k v : String)
    (h : assocGet k t.userVars = some v) : setUserVar t k v = t := by
  unfold setUserVar
  rw [if_pos h]

theorem setUserVar_events_new (t : TermState) (k v : String)
    (h : assocGet k t.userVars ≠ some v) :
    (setUserVar t k v).events =
      t.events ++ [.userVarChanged k v (assocGet k t.userVars)] := by
  unfold setUserVar
  rw [if_neg h]

theorem setUserVar_vars_new (t : TermState) (k v : String)
    (h : assocGet k t.userVars ≠ some v) :
    (setUserVar t k v).userVars = assocSet k v t.userVars := by
  unfold setUserVar
  rw [if_neg h]

theorem process_str_setUserVar (t : TermState) (k v : String)
    (hp : t.pstate = .ground)
    (hk : ∀ b ∈ strToBytes k, b ≠ 7 ∧ b ≠ 27 ∧ b ≠ 61) :
    process_str t ("\x1b]1337;SetUserVar=" ++ k ++ "=" ++
      scalarsToStr (b64Encode (strToBytes v)) ++ "\x07") = setUserVar t k v := by
  unfold process_str
  have hpre : strToBytes "\x1b]1337;SetUserVar=" =
      [27, 93, 49, 51, 51, 55, 59, 83, 101, 116, 85, 115, 101, 114, 86, 97,
       114, 61] := by decide
  have heq : strToBytes "=" = [61] := by decide
  have hbel : strToBytes "\x07" = [7] := by decide
  have hasc : strToBytes (scalarsToStr (b64Encode (strToBytes v))) =
      b64Encode (strToBytes v) := by
    refine strToBytes_scalarsToStr_ascii ?_
    intro b hb
    have := b64Encode_range (strToBytes v) b hb
    omega
  rw [strToBytes_append, strToBytes_append, strToBytes_append,
    strToBytes_append, hpre, heq, hbel, hasc]
  have hshape : ([27, 93, 49, 51, 51, 55, 59, 83, 101, 116, 85, 115, 101,
      114, 86, 97, 114, 61] ++ strToBytes k ++ [61] ++
        b64Encode (strToBytes v) ++ [7] : List Nat) =
      27 :: 93 :: (49 :: 51 :: 51 :: 55 :: 59 :: 83 :: 101 :: 116 :: 85 ::
        115 :: 101 :: 114 :: 86 :: 97 :: 114 :: 61 ::
        (strToBytes k ++ 61 :: b64Encode (strToBytes v))) ++ [7] := by
    simp
  rw [hshape]
  have hbody : ∀ b ∈ 49 :: 51 :: 51 :: 55 :: 59 :: 83 :: 101 :: 116 :: 85 ::
      115 :: 101 :: 114 :: 86 :: 97 :: 114 :: 61 ::
      (strToBytes k ++ 61 :: b64Encode (strToBytes v)),
      b ≠ 7 ∧ b ≠ 27 := by
    intro b hb
    simp only [List.mem_cons, List.mem_append] at hb
    rcases hb with rfl | rfl | rfl | rfl | rfl | rfl | rfl | rfl | rfl | rfl |
      rfl | rfl | rfl | rfl | rfl | rfl | hb2 | rfl | hb2
    all_goals try omega
    · exact ⟨(hk b hb2).1, (hk b hb2).2.1⟩
    · have := b64Encode_range (strToBytes v) b hb2
      omega
  rw [process_osc_seq t _ hp hbody, setP_ground_eq t hp,
    oscDispatch_setUserVar t (strToBytes k) (b64Encode (strToBytes v))
      (fun b hb => (hk b hb).2.2),
    b64Decode_b64Encode (strToBytes v) (fun b hb => strToBytes_lt b hb)]
  rw [bytesToStr_strToBytes]
  show setUserVar t k (bytesToStr (strToBytes v)) = setUserVar t k v
  rw [bytesToStr_strToBytes]

/-! ## Graphics round-trip lemmas (claim C4 groundwork) -/

theorem parseProtocol_protocolName (p : GProtocol) :
    parseProtocol (protocolName p) = some p := by
  cases p <;> rfl

theorem parseDisplayMode_displayModeName (d : GDisplayMode) :
    parseDisplayMode (displayModeName d) = some d := by
  cases d <;> rfl

theorem importGraphic_exportGraphic (g : Graphic)
    (h : ∀ b ∈ g.pixels, b < 256) :
    importGraphic (exportGraphic g) = some g := by
  obtain ⟨pr, w, ht, ⟨dm, r, c, z⟩, px⟩ := g
  unfold importGraphic exportGraphic
  simp only at h ⊢
  have hdata : (scalarsToStr (b64Encode px)).data.map Char.toNat =
      b64Encode px := by
    refine scalarsToStr_data_toNat ?_
    intro b hb
    have := b64Encode_range px b hb
    omega
  rw [parseProtocol_protocolName, parseDisplayMode_displayModeName, hdata,
    b64Decode_b64Encode px h]
  rfl

theorem mapM_importGraphic_export (gs : List Graphic)
    (h : ∀ g ∈ gs, ∀ b ∈ g.pixels, b < 256) :
    (gs.map exportGraphic).mapM importGraphic = some gs := by
  induction gs with
  | nil => rfl
  | cons g rest ih =>
    simp only [List.map_cons, List.mapM_cons,
      importGraphic_exportGraphic g (h g (by simp)),
      ih (fun g2 hg2 => h g2 (by simp [hg2])), Option.bind_eq_bind,
      Option.some_bind, Option.pure_def]

/-! ## Concrete claim scenarios -/

/-- The C1 scenario terminal: a fresh 80x24 terminal fed the full OSC 133
prompt/command/output cycle with exit code 0. -/
def c1Terminal : TermState :=
  process (newTerminal 80 24 100) (strToBytes
    ("\x1b]133;A\x07$ \r\n\x1b]133;B\x07ls\r\n\x1b]133;C\x07file1\r\n" ++
      "file2\r\n\x1b]133;D;0\x07"))

/-- The C6 scenario terminal: a fresh terminal fed the OSC 934 set
sequence. -/
def c6Terminal : TermState :=
  process_str (newTerminal 80 24 100)
    "\x1b]934;set;dl-1;percent=42;label=Downloading\x1b\\"

/-- The C7 scenario terminal: a fresh terminal fed the bytes of e followed
by combining acute U+0301. -/
def c7Terminal : TermState :=
  process (newTerminal 80 24 100) [0x65, 0xCC, 0x81]

/-- The first C10 stage: OSC 7 sets the cwd, then the event queue is
drained. -/
def c10TerminalA : TermState :=
  process_str (newTerminal 80 24 100) "\x1b]7;file:///home/user/project\x1b\\"

/-- The second C10 stage: OSC 1337 RemoteHost processed after draining. -/
def c10TerminalB : TermState :=
  process_str (poll_events c10TerminalA).2
    "\x1b]1337;RemoteHost=alice@remote-server\x1b\\"

/-! ## Claim theorems -/

/-- C1: on a fresh terminal, the byte sequence OSC 133;A BEL, "$ " CRLF,
OSC 133;B BEL, "ls" CRLF, OSC 133;C BEL, "file1" CRLF, "file2" CRLF,
OSC 133;D;0 BEL yields three zones of kinds [prompt, command, output] in
order, the output zone's exit code is 0, and `get_zone_text 2` returns text
containing both "file1" and "file2". -/
theorem c1_zone_cycle_scenario :
    (get_zones c1Terminal).length = 3 ∧
    (get_zones c1Terminal).map Zone.zoneType = [.prompt, .command, .output] ∧
    ((get_zones c1Terminal).getD 2 ⟨.prompt, 0, none, none, 0⟩).exitCode =
      some 0 ∧
    ∃ s, get_zone_text c1Terminal 2 = some s ∧
      strContainsSub s "file1" = true ∧ strContainsSub s "file2" = true := by
  refine ⟨by decide, by decide, by decide, "file1\nfile2", by decide,
    by decide, by decide⟩

/-- C2: from any primary-screen state, entering the alternate screen via
DECSET 1049, writing any printable text there, and leaving via DECRST 1049
restores the saved cursor row, cursor column and SGR attributes exactly,
leaves the primary grid untouched, and discards the alternate buffer. -/
theorem c2_alt_screen_round_trip (t : TermState) (ws : List Nat)
    (hp : t.pstate = .ground) (halt : t.altActive = false)
    (hws : ∀ b ∈ ws, 0x20 ≤ b ∧ b < 0x7F) :
    let t3 := process (process (process t (strToBytes "\x1b[?1049h")) ws)
      (strToBytes "\x1b[?1049l")
    t3.curRow = t.curRow ∧ t3.curCol = t.curCol ∧ t3.style = t.style ∧
    t3.altActive = false ∧ t3.grid = t.grid ∧
    t3.altGrid = blankGrid t.cols t.rows := by
  have hEnterB : strToBytes "\x1b[?1049h" = [27, 91, 63, 49, 48, 52, 57, 104] := by
    decide
  have hExitB : strToBytes "\x1b[?1049l" = [27, 91, 63, 49, 48, 52, 57, 108] := by
    decide
  simp only [hEnterB, hExitB]
  rw [process_enter_alt t hp halt]
  obtain ⟨g1, g2, g3, g4, g5, g6⟩ := process_printables_alt ws
    { t with altActive := true, savedAlt := some (t.curRow, t.curCol, t.style),
             altGrid := blankGrid t.cols t.rows }
    (by simpa using hp) (by simp) hws
  simp only at g3 g4 g5 g6
  rw [process_exit_alt _ t.curRow t.curCol t.style g1 g2 g3]
  refine ⟨rfl, rfl, rfl, rfl, g4, ?_⟩
  rw [g5, g6]

/-- Witness for C2 at a concrete state (cursor at (3,4), red-indexed
background, writing "X" on the alternate screen of a 10x5 terminal). -/
theorem c2_alt_screen_round_trip_witness :
    (({ (newTerminal 10 5 20) with
        curRow := 3, curCol := 4, style := { bg := Color.indexed 1 } } : TermState).pstate = .ground ∧
     ({ (newTerminal 10 5 20) with
        curRow := 3, curCol := 4, style := { bg := Color.indexed 1 } } : TermState).altActive = false ∧
     (∀ b ∈ [88], 0x20 ≤ b ∧ b < 0x7F)) ∧
    (let t3 := process (process (process
        { (newTerminal 10 5 20) with
          curRow := 3, curCol := 4, style := { bg := Color.indexed 1 } } (strToBytes "\x1b[?1049h"))
        [88]) (strToBytes "\x1b[?1049l")
     t3.curRow = ({ (newTerminal 10 5 20) with
        curRow := 3, curCol := 4, style := { bg := Color.indexed 1 } } : TermState).curRow ∧
     t3.curCol = ({ (newTerminal 10 5 20) with
        curRow := 3, curCol := 4, style := { bg := Color.indexed 1 } } : TermState).curCol ∧
     t3.style = ({ (newTerminal 10 5 20) with
        curRow := 3, curCol := 4, style := { bg := Color.indexed 1 } } : TermState).style ∧
     t3.altActive = false ∧
     t3.grid = ({ (newTerminal 10 5 20) with
        curRow := 3, curCol := 4, style := { bg := Color.indexed 1 } } : TermState).grid ∧
     t3.altGrid = blankGrid ({ (newTerminal 10 5 20) with
        curRow := 3, curCol := 4, style := { bg := Color.indexed 1 } } : TermState).cols
        ({ (newTerminal 10 5 20) with
          curRow := 3, curCol := 4, style := { bg := Color.indexed 1 } } : TermState).rows) :=
  ⟨⟨by decide, by decide, by decide⟩,
   c2_alt_screen_round_trip _ [88] (by decide) (by decide) (by decide)⟩

/-- C3: OSC 1337 SetUserVar with a base64-encoded payload stores the value
(readable back via `get_user_var`), and setting the same key to the same
value twice emits exactly one `user_var_changed` event, fired on the first
set only. -/
theorem c3_set_user_var_round_trip (t : TermState) (k v : String)
    (hp : t.pstate = .ground) (hev : t.events = [])
    (hvar : assocGet k t.userVars = none)
    (hk : ∀ b ∈ strToBytes k, b ≠ 7 ∧ b ≠ 27 ∧ b ≠ 61) :
    let seq := "\x1b]1337;SetUserVar=" ++ k ++ "=" ++
      scalarsToStr (b64Encode (strToBytes v)) ++ "\x07"
    get_user_var (process_str t seq) k = some v ∧
    (process_str t seq).events = [.userVarChanged k v none] ∧
    get_user_var (process_str (process_str t seq) seq) k = some v ∧
    (process_str (process_str t seq) seq).events =
      [.userVarChanged k v none] := by
  have e1 := process_str_setUserVar t k v hp hk
  have hnew : assocGet k t.userVars ≠ some v := by simp [hvar]
  have hp1 : (setUserVar t k v).pstate = .ground :=
    (setUserVar_pstate t k v).trans hp
  have hvar1 : assocGet k (setUserVar t k v).userVars = some v := by
    rw [setUserVar_vars_new t k v hnew]
    exact assocGet_assocSet k v t.userVars
  have e2 : process_str (setUserVar t k v) ("\x1b]1337;SetUserVar=" ++ k ++
      "=" ++ scalarsToStr (b64Encode (strToBytes v)) ++ "\x07") =
      setUserVar t k v := by
    rw [process_str_setUserVar (setUserVar t k v) k v hp1 hk,
      setUserVar_same (setUserVar t k v) k v hvar1]
  have hev1 : (setUserVar t k v).events = [.userVarChanged k v none] := by
    rw [setUserVar_events_new t k v hnew, hvar, hev, List.nil_append]
  refine ⟨?_, ?_, ?_, ?_⟩
  · rw [e1]; exact setUserVar_get t k v
  · rw [e1]; exact hev1
  · rw [e1, e2]; exact setUserVar_get t k v
  · rw [e1, e2]; exact hev1

/-- Witness for C3 at a concrete key and value. -/
theorem c3_set_user_var_round_trip_witness :
    ((newTerminal 80 24 100).pstate = .ground ∧
     (newTerminal 80 24 100).events = [] ∧
     assocGet "host" (newTerminal 80 24 100).userVars = none ∧
     (∀ b ∈ strToBytes "host", b ≠ 7 ∧ b ≠ 27 ∧ b ≠ 61)) ∧
    (let seq := "\x1b]1337;SetUserVar=" ++ "host" ++ "=" ++
      scalarsToStr (b64Encode (strToBytes "server1")) ++ "\x07"
     get_user_var (process_str (newTerminal 80 24 100) seq) "host" =
       some "server1" ∧
     (process_str (newTerminal 80 24 100) seq).events =
       [.userVarChanged "host" "server1" none] ∧
     get_user_var (process_str (process_str (newTerminal 80 24 100) seq) seq)
       "host" = some "server1" ∧
     (process_str (process_str (newTerminal 80 24 100) seq) seq).events =
       [.userVarChanged "host" "server1" none]) :=
  ⟨⟨by decide, by decide, by decide, by decide⟩,
   c3_set_user_var_round_trip (newTerminal 80 24 100) "host" "server1"
     (by decide) (by decide) (by decide) (by decide)⟩

/-- C4: importing an exported graphics document restores the same graphics:
the returned count equals the original `graphics_count`, each preserved
graphic keeps its protocol, dimensions, placement and pixel bytes, and the
target terminal has whatever graphics it held replaced (cleared). -/
theorem c4_graphics_import_export_round_trip (t1 t2 : TermState)
    (h : ∀ g ∈ t1.graphics, ∀ b ∈ g.pixels, b < 256) :
    import_graphics_json t2 (export_graphics_json t1) =
      .ok ({ t2 with graphics := t1.graphics }, graphics_count t1) := by
  unfold import_graphics_json export_graphics_json graphics_count
  rw [if_neg (by simp)]
  simp only [mapM_importGraphic_export t1.graphics h]

/-- Witness for C4 at a concrete pair of terminals (one sixel and one kitty
graphic on the source; the target already holds a graphic that the import
must clear). -/
theorem c4_graphics_import_export_round_trip_witness :
    (∀ g ∈ ({ (newTerminal 80 24 100) with graphics :=
        [⟨.sixel, 2, 6, ⟨.inline, 0, 0, 0⟩, [255, 0, 0, 255, 10, 20]⟩,
         ⟨.kitty, 3, 1, ⟨.absolute, 2, 5, 1⟩, [1, 2, 3]⟩] } : TermState).graphics,
      ∀ b ∈ g.pixels, b < 256) ∧
    import_graphics_json
        ({ (newTerminal 80 24 100) with graphics :=
          [⟨.itermInline, 1, 1, ⟨.floating, 9, 9, 9⟩, [7]⟩] })
        (export_graphics_json ({ (newTerminal 80 24 100) with graphics :=
          [⟨.sixel, 2, 6, ⟨.inline, 0, 0, 0⟩, [255, 0, 0, 255, 10, 20]⟩,
           ⟨.kitty, 3, 1, ⟨.absolute, 2, 5, 1⟩, [1, 2, 3]⟩] })) =
      .ok ({ ({ (newTerminal 80 24 100) with graphics :=
          [⟨.itermInline, 1, 1, ⟨.floating, 9, 9, 9⟩, [7]⟩] } : TermState) with
            graphics :=
          [⟨.sixel, 2, 6, ⟨.inline, 0, 0, 0⟩, [255, 0, 0, 255, 10, 20]⟩,
           ⟨.kitty, 3, 1, ⟨.absolute, 2, 5, 1⟩, [1, 2, 3]⟩] },
        graphics_count ({ (newTerminal 80 24 100) with graphics :=
          [⟨.sixel, 2, 6, ⟨.inline, 0, 0, 0⟩, [255, 0, 0, 255, 10, 20]⟩,
           ⟨.kitty, 3, 1, ⟨.absolute, 2, 5, 1⟩, [1, 2, 3]⟩] })) :=
  ⟨by decide, c4_graphics_import_export_round_trip _ _ (by decide)⟩

/-- C5: after registering the trigger pattern ERROR:\s+(\S+) with a
Highlight action of background (255,0,0), processing the line
"prefix ERROR: boom\n" and flushing the trigger scans yields exactly one
match on row 0 whose captures are group 0 and group 1 = "boom", and exactly
one highlight overlay on row 0 with bg (255,0,0). -/
theorem c5_trigger_match_highlight :
    ∃ t0 id,
      add_trigger (newTerminal 80 24 100) "error" "ERROR:\\s+(\\S+)"
        [⟨"highlight", [("bg_r", "255"), ("bg_g", "0"), ("bg_b", "0")]⟩] =
        .ok (t0, id) ∧
      (poll_trigger_matches
        (process_trigger_scans (process_str t0 "prefix ERROR: boom\n"))).1 =
        [⟨0, "prefix ERROR: boom", ["ERROR: boom", "boom"]⟩] ∧
      get_trigger_highlights
        (process_trigger_scans (process_str t0 "prefix ERROR: boom\n")) =
        [⟨0, 7, 18, none, some (255, 0, 0)⟩] := by
  refine ⟨_, _, rfl, ?_, ?_⟩ <;> decide

/-- C6: the OSC 934 payload set;dl-1;percent=42;label=Downloading stores a
bar keyed "dl-1" with state normal, percent "42" and label "Downloading",
and emits exactly one `progress_bar_changed` event with action set carrying
those fields. -/
theorem c6_named_progress_bar_set :
    named_progress_bars c6Terminal =
      [("dl-1", ⟨.normal, some "42", some "Downloading"⟩)] ∧
    c6Terminal.events = [.progressBarChanged "set" (some "dl-1")
      (some "normal") (some "42") (some "Downloading")] := by
  decide

/-- C7: a fresh terminal defaults to NFC normalization, and processing the
bytes of "e" followed by combining acute U+0301 stores the precomposed
U+00E9 at cell (0,0) with the cursor at column 1. -/
theorem c7_nfc_composition_default :
    normalization_form (newTerminal 80 24 100) = .nfc ∧
    get_char c7Terminal 0 0 = "é" ∧ c7Terminal.curCol = 1 := by
  decide

/-- C8: while the alternate screen is active, any OSC 133 marker leaves the
zone list and the zone-id counter unchanged; and, as in the repository's
test, after returning to the primary screen the same marker creates a zone
again. -/
theorem c8_zones_suspended_on_alt_screen (t : TermState) (m : List Nat)
    (hp : t.pstate = .ground) (halt : t.altActive = true)
    (hm : ∀ b ∈ m, b ≠ 7 ∧ b ≠ 27) :
    (get_zones (process t (strToBytes "\x1b]133;" ++ m ++ [7])) =
       get_zones t ∧
     (process t (strToBytes "\x1b]133;" ++ m ++ [7])).nextZoneId =
       t.nextZoneId) ∧
    (get_zones (process_str (newTerminal 80 24 100)
       "\x1b[?1049h\x1b]133;A\x07") = [] ∧
     (get_zones (process_str (process_str (newTerminal 80 24 100)
         "\x1b[?1049h\x1b]133;A\x07") "\x1b[?1049l\x1b]133;A\x07")).map
       Zone.zoneType = [.prompt]) := by
  constructor
  · have hb : strToBytes "\x1b]133;" = [27, 93, 49, 51, 51, 59] := by decide
    have hshape : (strToBytes "\x1b]133;" ++ m ++ [7] : List Nat) =
        27 :: 93 :: (49 :: 51 :: 51 :: 59 :: m) ++ [7] := by
      rw [hb]; simp
    have hbody : ∀ b ∈ 49 :: 51 :: 51 :: 59 :: m, b ≠ 7 ∧ b ≠ 27 := by
      intro b hb2
      simp only [List.mem_cons] at hb2
      rcases hb2 with rfl | rfl | rfl | rfl | hb2
      all_goals try omega
      exact hm b hb2
    rw [hshape, process_osc_seq t _ hp hbody, oscDispatch_133,
      handle133_alt _ m (by simpa [setP] using halt)]
    exact ⟨rfl, rfl⟩
  · exact ⟨by decide, by decide⟩

/-- Witness for C8 at a concrete alternate-screen state and the marker B. -/
theorem c8_zones_suspended_on_alt_screen_witness :
    ((process_str (newTerminal 80 24 100) "\x1b[?1049h").pstate = .ground ∧
     (process_str (newTerminal 80 24 100) "\x1b[?1049h").altActive = true ∧
     (∀ b ∈ [66], b ≠ 7 ∧ b ≠ 27)) ∧
    ((get_zones (process (process_str (newTerminal 80 24 100) "\x1b[?1049h")
        (strToBytes "\x1b]133;" ++ [66] ++ [7])) =
       get_zones (process_str (newTerminal 80 24 100) "\x1b[?1049h") ∧
      (process (process_str (newTerminal 80 24 100) "\x1b[?1049h")
        (strToBytes "\x1b]133;" ++ [66] ++ [7])).nextZoneId =
       (process_str (newTerminal 80 24 100) "\x1b[?1049h").nextZoneId) ∧
     (get_zones (process_str (newTerminal 80 24 100)
        "\x1b[?1049h\x1b]133;A\x07") = [] ∧
      (get_zones (process_str (process_str (newTerminal 80 24 100)
          "\x1b[?1049h\x1b]133;A\x07") "\x1b[?1049l\x1b]133;A\x07")).map
        Zone.zoneType = [.prompt])) :=
  ⟨⟨by decide, by decide, by decide⟩,
   c8_zones_suspended_on_alt_screen _ [66] (by decide) (by decide)
     (by decide)⟩

/-- C9: `add_trigger` reports InvalidArgument synchronously (an error
result, surfaced as ValueError) when the pattern does not compile or an
action's type is unknown; an error result carries no new state, so nothing
is registered. -/
theorem c9_add_trigger_invalid_rejected (t : TermState)
    (name pattern : String) (actions : List TriggerAction)
    (h : compileRegex pattern = none ∨
      ∃ a ∈ actions, ¬ knownActionTypes.contains a.actionType = true) :
    ∃ msg, add_trigger t name pattern actions = .error msg := by
  unfold add_trigger
  rcases h with h | ⟨a, ha, hb⟩
  · rw [h]
    exact ⟨_, rfl⟩
  · cases hc : compileRegex pattern with
    | none => exact ⟨_, rfl⟩
    | some r =>
      rw [if_neg]
      · exact ⟨_, rfl⟩
      · intro hall
        rw [List.all_eq_true] at hall
        exact hb (hall a ha)

/-- Witness for C9 at the concrete invalid pattern of the repository's
test. -/
theorem c9_add_trigger_invalid_rejected_witness :
    compileRegex "[invalid" = none ∧
    ∃ msg, add_trigger (newTerminal 80 24 100) "bad" "[invalid" [] =
      .error msg :=
  ⟨by rfl,
   c9_add_trigger_invalid_rejected (newTerminal 80 24 100) "bad" "[invalid"
     [] (Or.inl (by rfl))⟩

/-- C10: OSC 1337 RemoteHost emits, besides `remote_host_transition`, one
`cwd_changed` event carrying the new hostname and username, while the
stored cwd (set earlier by OSC 7) is unchanged and still reported. -/
theorem c10_remote_host_cwd_event :
    shell_integration_cwd c10TerminalB = some "/home/user/project" ∧
    c10TerminalB.events =
      [.remoteHostTransition none (some "remote-server") none (some "alice"),
       .cwdChanged (some "/home/user/project") (some "remote-server")
         (some "alice")] := by
  decide

end PTE
